import Mathlib

/-!
Verification of the auto-directory submission pipeline
(`aiagents_directory/auto_directory`): URL classification and filtering,
URL normalization and deduplication, the enrichment and review services,
and agent creation from submissions.

The Python source is shallowly embedded: strings are manipulated as
`List Char`, Python floats used only for confidence scores are modelled
as `ℚ`, database rows are records, external collaborators (Firecrawl,
the review model, HTTP downloads) are explicit parameters describing
their observable outcome, and Python exceptions are `Except` values.
-/

namespace AutoDir

/-- Python `str.lower()` restricted to ASCII, applied characterwise.
The pipeline only lowercases URLs, domain patterns and names, which are
ASCII in all configured data. -/
def lowerL (cs : List Char) : List Char := cs.map Char.toLower

/-- String-level wrapper of `lowerL`, modelling `str.lower()`. -/
def lowerS (s : String) : String := ⟨lowerL s.data⟩

/-- Python whitespace for `str.strip()`: space (32), tab (9), newline
(10), carriage return (13), vertical tab (11), form feed (12) — the
ASCII model, written on code points. -/
def isPyWs (c : Char) : Bool :=
  c.toNat = 32 || c.toNat = 9 || c.toNat = 10 || c.toNat = 13
    || c.toNat = 11 || c.toNat = 12

/-- Python `str.strip()` (ASCII model): drop whitespace from both ends. -/
def stripL (cs : List Char) : List Char :=
  ((cs.dropWhile isPyWs).reverse.dropWhile isPyWs).reverse

/-- CPython `urlsplit` first strips WHATWG C0-control-or-space bytes from
both ends of the URL. -/
def stripC0 (cs : List Char) : List Char :=
  ((cs.dropWhile (fun c => c.toNat ≤ 32)).reverse.dropWhile
    (fun c => c.toNat ≤ 32)).reverse

/-- CPython `urlsplit` removes tab (9), carriage return (13) and
newline (10) anywhere in the URL (`_UNSAFE_URL_BYTES_TO_REMOVE`),
written on code points. -/
def removeUnsafe (cs : List Char) : List Char :=
  cs.filter (fun c => !(c.toNat = 9 || c.toNat = 13 || c.toNat = 10))

/-- Characters CPython accepts inside a URL scheme. -/
def isSchemeChar (c : Char) : Bool :=
  c.isAlpha || c.isDigit || c = '+' || c = '-' || c = '.'

/-- CPython scheme split: the text before the first `:` is a scheme iff it
is non-empty, starts with an ASCII letter and consists of scheme
characters; otherwise no scheme is recognised. Returns
`(scheme, remainder)`. -/
def splitScheme (cs : List Char) : List Char × List Char :=
  let pre := cs.takeWhile (fun c => c ≠ ':')
  let post := cs.dropWhile (fun c => c ≠ ':')
  match post with
  | [] => ([], cs)
  | _ :: rest =>
    match pre with
    | [] => ([], cs)
    | c :: _ =>
      if c.isAlpha && pre.all isSchemeChar then (lowerL pre, rest) else ([], cs)

/-- CPython netloc split (after the leading `//`): the netloc extends to
the first `/`, `?` or `#`. Returns `(netloc, remainder)`. -/
def splitNetloc (cs : List Char) : List Char × List Char :=
  (cs.takeWhile (fun c => c ≠ '/' && c ≠ '?' && c ≠ '#'),
   cs.dropWhile (fun c => c ≠ '/' && c ≠ '?' && c ≠ '#'))

/-- Schemes for which CPython `urlparse` splits `;params` off the path
(`uses_params`). -/
def usesParams : List (List Char) :=
  ["".data, "ftp".data, "hdl".data, "prospero".data, "http".data,
   "imap".data, "https".data, "shttp".data, "rtsp".data, "rtsps".data,
   "rtspu".data, "sip".data, "sips".data, "mms".data, "sftp".data,
   "tel".data]

/-- CPython `_splitparams`: the params are the text after the first `;`
within the last path segment; the returned path excludes them. -/
def splitParams (cs : List Char) : List Char :=
  if cs.contains '/' then
    let revCs := cs.reverse
    let segRev := revCs.takeWhile (fun c => c ≠ '/')
    let beforeRev := revCs.dropWhile (fun c => c ≠ '/')
    beforeRev.reverse ++ (segRev.reverse.takeWhile (fun c => c ≠ ';'))
  else cs.takeWhile (fun c => c ≠ ';')

/-- Result of `urllib.parse.urlparse` restricted to the components the
pipeline reads (`scheme`, `netloc`, `path`). -/
structure UrlParts where
  scheme : List Char
  netloc : List Char
  path : List Char
deriving Repr, DecidableEq

/-- Model of CPython `urllib.parse.urlparse`: strip unsafe bytes, split
the scheme, the `//netloc`, drop fragment and query, and split params
off the path for the schemes in `usesParams`. -/
def pyUrlparse (cs0 : List Char) : UrlParts :=
  let cs := removeUnsafe (stripC0 cs0)
  let (scheme, rest) := splitScheme cs
  let (netloc, rest2) :=
    if ['/', '/'].isPrefixOf rest then splitNetloc (rest.drop 2)
    else ([], rest)
  let beforeQ := (rest2.takeWhile (fun c => c ≠ '#')).takeWhile (fun c => c ≠ '?')
  let path :=
    if usesParams.contains scheme && beforeQ.contains ';' then splitParams beforeQ
    else beforeQ
  ⟨scheme, netloc, path⟩

/-- Drop a leading `www.` when present (used on hosts). -/
def stripWww (cs : List Char) : List Char :=
  if "www.".data.isPrefixOf cs then cs.drop 4 else cs

/-- Python `str.rstrip("/")`: drop trailing slashes. -/
def rstripSlash (cs : List Char) : List Char :=
  (cs.reverse.dropWhile (fun c => c = '/')).reverse

/-- Python substring test `needle in hay` on strings. -/
def substrIn (needle hay : List Char) : Bool := decide (needle <:+: hay)

/-!
`aiagents_directory/auto_directory/filters.py`: URL classification.
The Django settings the module reads (`AUTO_DIRECTORY_DOMAIN_BLOCKLIST`,
`AUTO_DIRECTORY_AGGREGATOR_DOMAINS`, `AUTO_DIRECTORY_DOMAIN_ALLOWLIST`,
`AUTO_DIRECTORY_PATH_BLOCKLIST`, `AUTO_DIRECTORY_GITHUB_VALID`) are not
part of the sources; they are gathered into an explicit configuration
record that every filter function receives.
-/

/-- Configured blocklists/allowlists read from Django settings. -/
structure FilterConfig where
  domain_blocklist : List String
  aggregator_domains : List String
  domain_allowlist : List String
  path_blocklist : List String
  github_valid : Bool
deriving Repr, DecidableEq

/-- Model of `filters._get_domain`: extract the domain of a URL from
`urlparse(url.lower().strip())`, falling back to the first path segment
when there is no netloc, and removing a `www.` prefix. -/
def get_domain (url : String) : String :=
  if url = "" then "" else
  let p := pyUrlparse (stripL (lowerL url.data))
  let domain := if p.netloc ≠ [] then p.netloc else p.path.takeWhile (fun c => c ≠ '/')
  ⟨stripWww domain⟩

/-- Model of `filters._get_path`: the path component of
`urlparse(url.lower().strip())`. -/
def get_path (url : String) : String :=
  if url = "" then "" else ⟨(pyUrlparse (stripL (lowerL url.data))).path⟩

/-- Model of `filters._domain_matches`: case-insensitive domain/pattern match.
A `*.base` pattern matches `base` or any subdomain; any other pattern
matches the equal domain or any subdomain of it. -/
def domain_matches (domain pattern : String) : Bool :=
  if domain = "" || pattern = "" then false
  else
    let p := lowerL pattern.data
    let d := lowerL domain.data
    if "*.".data.isPrefixOf p then
      let base := p.drop 2
      d == base || ('.' :: base).isSuffixOf d
    else
      d == p || ('.' :: p).isSuffixOf d

/-- Does the domain of `url` match some entry of the domain blocklist
(the first loop of `filters.is_blocked_url`)? -/
def domainBlocklisted (cfg : FilterConfig) (url : String) : Bool :=
  cfg.domain_blocklist.any (fun b => domain_matches (get_domain url) b)

/-- Does the domain of `url` match some configured aggregator domain? -/
def aggregatorDomain (cfg : FilterConfig) (url : String) : Bool :=
  cfg.aggregator_domains.any (fun a => domain_matches (get_domain url) a)

/-- Does the path of `url` contain some configured blocked path pattern
(the last loop of `filters.is_blocked_url`)? -/
def pathBlocklisted (cfg : FilterConfig) (url : String) : Bool :=
  cfg.path_blocklist.any (fun b => substrIn (lowerL b.data) (get_path url).data)

/-- Model of `filters.is_blocked_url`: blocked when the domain is blocklisted, or
— for non-aggregator domains only — when the path contains a blocked
pattern. Aggregator domains are exempt from the path blocklist. -/
def is_blocked_url (cfg : FilterConfig) (url : String) : Bool :=
  if domainBlocklisted cfg url then true
  else if aggregatorDomain cfg url then false
  else pathBlocklisted cfg url

/-- Model of `filters.is_aggregator_url`. -/
def is_aggregator_url (cfg : FilterConfig) (url : String) : Bool :=
  aggregatorDomain cfg url

/-- Model of `filters.is_github_url`: domain is `github.com`, `github.io` or a
`*.github.io` subdomain. -/
def is_github_url (url : String) : Bool :=
  get_domain url == "github.com" || get_domain url == "github.io"
    || ".github.io".data.isSuffixOf (get_domain url).data

/-- Model of `filters.is_allowlisted_url`. -/
def is_allowlisted_url (cfg : FilterConfig) (url : String) : Bool :=
  cfg.domain_allowlist.any (fun a => domain_matches (get_domain url) a)

/-- Model of `filters.is_non_root_url`: after removing trailing slashes, the path
is not one of the recognised root paths and has a non-empty segment. -/
def is_non_root_url (url : String) : Bool :=
  let path := rstripSlash (get_path url).data
  let roots : List (List Char) := ["".data, "/".data, "/en".data, "/en-us".data, "/en-gb".data]
  if roots.contains (lowerL path) then false
  else ((path.splitOn '/').filter (fun s => s ≠ [])).length > 0

/-- The six URL classifications of `filters.URLClassification`. -/
inductive URLClassification where
  | blocked
  | aggregator
  | github
  | allowlist
  | non_root
  | normal
deriving Repr, DecidableEq

/-- Model of `filters.get_url_classification`: first match wins in the order
blocked, aggregator, github (demoted to blocked when
`AUTO_DIRECTORY_GITHUB_VALID` is off), allowlist, non_root, normal. -/
def get_url_classification (cfg : FilterConfig) (url : String) : URLClassification :=
  if is_blocked_url cfg url then .blocked
  else if is_aggregator_url cfg url then .aggregator
  else if is_github_url url then
    if cfg.github_valid then .github else .blocked
  else if is_allowlisted_url cfg url then .allowlist
  else if is_non_root_url url then .non_root
  else .normal

/-- Model of `filters.get_block_reason`: the first matching domain-blocklist entry
or, failing that, the first matching path-blocklist pattern, rendered as
a human-readable reason; `none` when neither list matches. -/
def get_block_reason (cfg : FilterConfig) (url : String) : Option String :=
  match cfg.domain_blocklist.find? (fun b => domain_matches (get_domain url) b) with
  | some b => some ("Domain \u0027" ++ b ++ "\u0027 is in blocklist")
  | none =>
    match cfg.path_blocklist.find?
        (fun b => substrIn (lowerL b.data) (lowerL (get_path url).data)) with
    | some b => some ("Path contains blocked pattern \u0027" ++ b ++ "\u0027")
    | none => none

/-!
`aiagents_directory/auto_directory/sources/base.py`: URL normalization.
-/

/-- Model of `sources.base.normalize_url`: lowercase and strip the URL, drop the
scheme and a `www.` prefix, and remove trailing slashes from the path.
When there is no netloc and the path contains a slash, host and path are
recomputed from the first slash. -/
def normalize_url (url : String) : String :=
  if url = "" then "" else
  let p := pyUrlparse (stripL (lowerL url.data))
  let host0 := if p.netloc ≠ [] then p.netloc else p.path.takeWhile (fun c => c ≠ '/')
  let host1 := stripWww host0
  let path1 := rstripSlash p.path
  let hp :=
    if p.netloc = [] && p.path.contains '/' then
      let first := p.path.takeWhile (fun c => c ≠ '/')
      let after := (p.path.dropWhile (fun c => c ≠ '/')).drop 1
      (stripWww first, '/' :: rstripSlash after)
    else (host1, path1)
  ⟨hp.1 ++ hp.2⟩

/-!
Data model (`agents/models.py`, `auto_directory/schemas.py`): submission
status and source enums, the AI review result, enrichment snapshots, the
submission row and the directory-entry ("Agent") row. JSON blobs are
modelled as records with `Option` fields (`none` is an absent or null
key, mirroring Python dict `get` with a falsy default).
-/

/-- Status choices of `AgentSubmission.status`. -/
inductive SubmissionStatus where
  | PENDING
  | APPROVED
  | REJECTED
deriving Repr, DecidableEq

/-- Source choices of `AgentSubmission.source`. -/
inductive SubmissionSource where
  | FORM
  | AUTO
deriving Repr, DecidableEq

/-- Model of `schemas.ReviewResult` (the AI review gateway output).
Confidence is a float in `[0, 1]`; it is modelled as a rational. -/
structure ReviewResult where
  decision : String
  is_ai_agent : Bool
  confidence : ℚ
  reasoning : String
  flags : List String
  auto_applied : Bool
deriving Repr, DecidableEq

/-- Model of the `_sourcing_metadata` fragment written by
`SourcingService._process_discoveries`. Absent dict keys are `false`. -/
structure SourcingMetadata where
  url_classification : URLClassification
  source_id : String
  is_aggregator : Bool
  needs_url_extraction : Bool
  is_github : Bool
  potential_open_source : Bool
deriving Repr, DecidableEq

/-- Model of the `_name_verification` fragment written by
`EnrichmentService._verify_agent_name`. -/
structure NameVerification where
  submitted_name : String
  name_matches : Bool
  extracted_name : Option String
  confidence : ℚ
  should_update : Bool
deriving Repr, DecidableEq

/-- Model of the `_url_extraction` fragment written by
`EnrichmentService.enrich_submission` when an aggregator URL was
replaced by the extracted product URL. -/
structure UrlExtraction where
  original_url : String
  extracted_url : String
  extraction_performed : Bool
deriving Repr, DecidableEq

/-- Structured content extracted by Firecrawl JSON mode
(`schemas.AgentEnrichmentSchema`). All fields are optional. -/
structure ContentData where
  short_description : Option String
  description : Option String
  features : Option (List String)
  use_cases : Option (List String)
  pricing_model : Option String
  category : Option String
  is_open_source : Option Bool
  industry : Option String
  twitter_url : Option String
  linkedin_url : Option String
  demo_video_url : Option String
deriving Repr, DecidableEq

/-- Firecrawl branding images (`branding.images`). -/
structure BrandingImages where
  logo : Option String
  ogImage : Option String
deriving Repr, DecidableEq

/-- Firecrawl branding data. -/
structure Branding where
  logo : Option String
  images : Option BrandingImages
deriving Repr, DecidableEq

/-- Model of `schemas.EnrichmentResult`: everything a single enrichment
scrape produced. -/
structure EnrichmentResult where
  success : Bool
  error_message : Option String
  content_data : Option ContentData
  branding_data : Option Branding
  logo_url : Option String
  markdown : Option String
  screenshot_url : Option String
  og_url : Option String
  final_url : Option String
deriving Repr, DecidableEq

/-- Model of `schemas.EnrichmentResult.from_error`. -/
def EnrichmentResult.from_error (msg : String) : EnrichmentResult :=
  { success := false, error_message := some msg, content_data := none,
    branding_data := none, logo_url := none, markdown := none,
    screenshot_url := none, og_url := none, final_url := none }

/-- Model of the JSON blob stored in `AgentSubmission.enrichment_data`: the
`EnrichmentResult.to_dict()` keys plus the underscore-prefixed
bookkeeping keys added by `enrich_submission` and
`_process_discoveries`. Booleans model keys that are absent (`false`)
or set to `True`. -/
structure EnrichmentData where
  success : Bool
  error_message : Option String
  content_data : Option ContentData
  branding_data : Option Branding
  logo_url : Option String
  markdown : Option String
  screenshot_url : Option String
  og_url : Option String
  final_url : Option String
  url_extraction : Option UrlExtraction
  sourcing_metadata : Option SourcingMetadata
  name_verification : Option NameVerification
  canonical_url : Option String
  logo_downloaded : Bool
  logo_download_failed : Bool
  screenshot_downloaded : Bool
  screenshot_download_failed : Bool
deriving Repr, DecidableEq

/-- Model of `EnrichmentResult.to_dict()` as the base of an
`enrichment_data` blob (no bookkeeping keys yet). -/
def EnrichmentResult.toData (r : EnrichmentResult) : EnrichmentData :=
  { success := r.success, error_message := r.error_message,
    content_data := r.content_data, branding_data := r.branding_data,
    logo_url := r.logo_url, markdown := r.markdown,
    screenshot_url := r.screenshot_url, og_url := r.og_url,
    final_url := r.final_url, url_extraction := none,
    sourcing_metadata := none, name_verification := none,
    canonical_url := none, logo_downloaded := false,
    logo_download_failed := false, screenshot_downloaded := false,
    screenshot_download_failed := false }

/-- Model of an `agents.models.AgentSubmission` row (the fields the
pipeline reads or writes). Downloaded media files are represented by
the URL they were fetched from. -/
structure Submission where
  agent_name : String
  agent_website : String
  agent_description : String
  source : SubmissionSource
  status : SubmissionStatus
  needs_manual_review : Bool
  ai_review_result : Option ReviewResult
  enrichment_data : Option EnrichmentData
  logo : Option String
  screenshot : Option String
deriving Repr, DecidableEq

/-- Model of an `agents.models.Agent` row (directory entry) with its
child collections (features, use cases, categories, screenshots)
inlined. -/
structure Agent where
  pk : Nat
  name : String
  slug : String
  website : String
  short_description : String
  description : String
  pricing_model : String
  industry : String
  is_open_source : Option Bool
  twitter_url : Option String
  linkedin_url : Option String
  demo_video_url : Option String
  order : Nat
  features : List String
  use_cases : List String
  categories : List String
  logo : Option String
  screenshots : List String
deriving Repr, DecidableEq

/-!
Review service (`auto_directory/services/review.py`). The external
Pydantic AI call in `ReviewService.review` is an input here: theorems
quantify over the `ReviewResult` it produced (including the mapped
`needs_review`/`review_error` result built on gateway failure).
-/

/-- Model of `ReviewService.__init__`: `confidence_threshold or
CONFIDENCE_THRESHOLD`, where `CONFIDENCE_THRESHOLD = 0.7` and a falsy
(absent or zero) override falls back to the default. -/
def confidenceThresholdOf (override : Option ℚ) : ℚ :=
  match override with
  | none => mkRat 7 10
  | some v => if v = 0 then mkRat 7 10 else v

/-- Model of `ReviewService.review` when the Pydantic AI call raises: the
error is mapped to a safe `needs_review` result. -/
def reviewErrorResult (errText : String) : ReviewResult :=
  { decision := "needs_review", is_ai_agent := false, confidence := 0,
    reasoning := "Review failed due to error: " ++ errText,
    flags := ["review_error"], auto_applied := false }

/-- State acted on by the review and approval flows: the directory
entries and the one submission being processed. -/
structure ReviewState where
  agents : List Agent
  submission : Submission
deriving Repr, DecidableEq

/-- Model of `ReviewService.review_submission` after the review gateway
returned `result`: compute the manual-review flag from the confidence
threshold, decide whether to auto-apply, store the result (with its
`auto_applied` flag) on the submission, and transition the status only
when auto-applying an approved/rejected decision. The method touches no
`Agent` row; the directory entries pass through unchanged. -/
def review_submission (threshold : ℚ) (auto_apply : Bool)
    (result : ReviewResult) (st : ReviewState) : ReviewState :=
  let needs_manual : Bool := result.confidence < threshold
  let should_apply : Bool :=
    auto_apply && !needs_manual
      && (result.decision == "approved" || result.decision == "rejected")
  let stored := { result with auto_applied := should_apply }
  let sub := { st.submission with
    ai_review_result := some stored,
    needs_manual_review := needs_manual }
  let sub :=
    if should_apply then
      if result.decision == "approved" then
        { sub with status := SubmissionStatus.APPROVED }
      else if result.decision == "rejected" then
        { sub with status := SubmissionStatus.REJECTED }
      else sub
    else sub
  { agents := st.agents, submission := sub }

/-!
Sourcing service (`auto_directory/services/sourcing.py`): dedup seeding
and per-discovery processing. The Python working set is a `set`; it is
modelled as a list used only through membership.
-/

/-- Model of a `sources.base.DiscoveredAgent`. -/
structure DiscoveredAgent where
  name : String
  website : String
  description : String
  source_id : String
  source_url : String
deriving Repr, DecidableEq

/-- Model of `SourcingService._get_existing_urls`: the non-empty
normalized websites of all `Agent` rows plus all submissions whose
status is not REJECTED. -/
def get_existing_urls (agents : List Agent) (subs : List Submission) : List String :=
  ((agents.map (fun a => normalize_url a.website)).filter (fun n => decide (n ≠ "")))
    ++ (((subs.filter (fun s => decide (s.status ≠ SubmissionStatus.REJECTED))).map
          (fun s => normalize_url s.agent_website)).filter (fun n => decide (n ≠ "")))

/-- Accumulator of the discovery loop in
`SourcingService._process_discoveries`: the growing dedup set, the
surviving `(agent, classification)` pairs, and the two skip counters. -/
structure ProcessState where
  urls : List String
  filtered : List (DiscoveredAgent × URLClassification)
  blocked_count : Nat
  duplicate_count : Nat
deriving Repr, DecidableEq

/-- One iteration of the discovery loop: classify, drop blocked URLs,
drop empty or already-seen normalized URLs, otherwise keep the
discovery and add its normalized URL to the set. -/
def process_one (cfg : FilterConfig) (st : ProcessState) (d : DiscoveredAgent) :
    ProcessState :=
  let classification := get_url_classification cfg d.website
  if classification = URLClassification.blocked then
    { st with blocked_count := st.blocked_count + 1 }
  else
    let normalized := normalize_url d.website
    if normalized = "" || st.urls.contains normalized then
      { st with duplicate_count := st.duplicate_count + 1 }
    else
      { st with urls := normalized :: st.urls,
                filtered := st.filtered ++ [(d, classification)] }

/-- Model of the `enrichment_data` blob stored at submission creation: a
dict holding only the `_sourcing_metadata` key (so no `success` key —
falsy — and no content). -/
def sourcingOnlyData (meta : SourcingMetadata) : EnrichmentData :=
  { success := false, error_message := none, content_data := none,
    branding_data := none, logo_url := none, markdown := none,
    screenshot_url := none, og_url := none, final_url := none,
    url_extraction := none, sourcing_metadata := some meta,
    name_verification := none, canonical_url := none,
    logo_downloaded := false, logo_download_failed := false,
    screenshot_downloaded := false, screenshot_download_failed := false }

/-- Model of the `AgentSubmission.objects.create` call in
`_process_discoveries`: a PENDING, AUTO-sourced submission with
truncated name/website, classification metadata, and the manual-review
flag preset for `non_root` and `github` classifications. -/
def make_submission (source_id : String) (d : DiscoveredAgent)
    (classification : URLClassification) : Submission :=
  let meta : SourcingMetadata :=
    { url_classification := classification, source_id := source_id,
      is_aggregator := classification == URLClassification.aggregator,
      needs_url_extraction := classification == URLClassification.aggregator,
      is_github := classification == URLClassification.github,
      potential_open_source := classification == URLClassification.github }
  { agent_name := d.name.take 200,
    agent_website := d.website.take 255,
    agent_description :=
      if d.description ≠ "" then d.description else "Discovered from " ++ source_id,
    source := SubmissionSource.AUTO,
    status := SubmissionStatus.PENDING,
    needs_manual_review :=
      classification == URLClassification.non_root
        || classification == URLClassification.github,
    ai_review_result := none,
    enrichment_data := some (sourcingOnlyData meta),
    logo := none, screenshot := none }

/-- Model of `SourcingService._process_discoveries` given the dedup set
seeded at run start: fold the discovery loop, then create one
submission per surviving discovery, in order. -/
def process_discoveries (cfg : FilterConfig) (existing : List String)
    (source_id : String) (discovered : List DiscoveredAgent) :
    ProcessState × List Submission :=
  let st := discovered.foldl (process_one cfg) ⟨existing, [], 0, 0⟩
  (st, st.filtered.map (fun p => make_submission source_id p.1 p.2))

/-!
Enrichment service (`auto_directory/services/enrichment.py`). External
collaborators are parameters: `scrape` is the observable outcome of the
Firecrawl scrape per URL, `net` the success of an HTTP media download
per URL (including its content-type check), `aggExtract` the outcome of
the aggregator-extraction scrape, and `canonical_scan` the regex scan
of `_extract_canonical_url`, treated as opaque because no claim depends
on its internals.
-/

/-- Observable outcome of `Firecrawl.scrape` inside
`EnrichmentService.enrich`. -/
structure ScrapeMetadata where
  og_url : Option String
  url : Option String
deriving Repr, DecidableEq

/-- Successful Firecrawl scrape response (fields read by `enrich`). -/
structure ScrapeResponse where
  branding : Option Branding
  json : Option ContentData
  markdown : Option String
  screenshot : Option String
  metadata : Option ScrapeMetadata
deriving Repr, DecidableEq

/-- Outcome of one Firecrawl scrape call: an exception, a `None`
response, or a response object. -/
inductive ScrapeOutcome where
  | exn (message : String)
  | noResponse
  | ok (response : ScrapeResponse)
deriving Repr, DecidableEq

/-- Python truthiness on an optional string: an absent or empty string
is falsy. -/
def truthyOpt (o : Option String) : Option String :=
  match o with
  | some s => if s = "" then none else some s
  | none => none

/-- Model of `EnrichmentService._is_svg_url`:
`urlparse(url).path.lower().endswith(".svg")`. -/
def is_svg_url (url : String) : Bool :=
  if url = "" then false
  else ".svg".data.isSuffixOf (lowerL (pyUrlparse url.data).path)

/-- Model of `EnrichmentService._extract_best_logo_url`: prefer a
non-SVG `branding.logo`, then non-SVG `branding.images.logo`, then
non-SVG `branding.images.ogImage`, then fall back to an SVG logo as a
last resort. -/
def extract_best_logo_url (branding : Option Branding) : Option String :=
  match branding with
  | none => none
  | some b =>
    let logo_primary := b.logo
    let logo_images := b.images.bind BrandingImages.logo
    let og_image := b.images.bind BrandingImages.ogImage
    let nonSvg : Option String → Option String := fun o =>
      match truthyOpt o with
      | some u => if is_svg_url u then none else some u
      | none => none
    (nonSvg logo_primary).orElse (fun _ =>
      (nonSvg logo_images).orElse (fun _ =>
        (nonSvg og_image).orElse (fun _ =>
          (truthyOpt logo_primary).orElse (fun _ => truthyOpt logo_images))))

/-- Model of `EnrichmentService.enrich`: one scrape call; an exception
or missing response yields a failed `EnrichmentResult` (it never
raises), a response yields a successful result with the extracted
fields. -/
def enrich (scrape : String → ScrapeOutcome) (url : String) : EnrichmentResult :=
  match scrape url with
  | ScrapeOutcome.exn e => EnrichmentResult.from_error ("Firecrawl scrape failed: " ++ e)
  | ScrapeOutcome.noResponse => EnrichmentResult.from_error "No response from Firecrawl"
  | ScrapeOutcome.ok r =>
    { success := true, error_message := none, content_data := r.json,
      branding_data := r.branding,
      logo_url := extract_best_logo_url r.branding,
      markdown := r.markdown, screenshot_url := r.screenshot,
      og_url := r.metadata.bind ScrapeMetadata.og_url,
      final_url := r.metadata.bind ScrapeMetadata.url }

/-- Outcome of the aggregator-extraction scrape in
`_extract_product_url_from_aggregator`: `failure` covers an exception,
a `None` response and a response without JSON data. -/
inductive AggExtraction where
  | failure
  | ok (product_website : Option String) (confidence : Option ℚ)
deriving Repr, DecidableEq

/-- Model of `EnrichmentService._extract_product_url_from_aggregator`
after the scrape: accept the extracted URL only when it is non-empty,
the reported confidence (0 when missing) is at least 0.5, and the URL
starts with `http://` or `https://`. -/
def extract_product_url_from_aggregator (agg : AggExtraction) : Option String :=
  match agg with
  | AggExtraction.failure => none
  | AggExtraction.ok pw conf =>
    match truthyOpt pw with
    | none => none
    | some u =>
      if conf.getD 0 ≥ mkRat 1 2 then
        if "http://".data.isPrefixOf u.data || "https://".data.isPrefixOf u.data
        then some u else none
      else none

/-- Model of `EnrichmentService._verify_agent_name`: flag (but never
auto-correct) a mismatch when the stripped lowercased submitted name
does not occur in the extracted short description. The Python dict key
`matches` is the field `name_matches` (`matches` is reserved in Lean). -/
def verify_agent_name (submitted_name : String) (content : ContentData) :
    NameVerification :=
  let submitted_lower := stripL (lowerL submitted_name.data)
  let short_desc := content.short_description.getD ""
  let base : NameVerification :=
    { submitted_name := submitted_name, name_matches := true,
      extracted_name := none, confidence := 0, should_update := false }
  if short_desc ≠ "" && !(substrIn submitted_lower (lowerL short_desc.data)) then
    { base with name_matches := false, confidence := mkRat 1 2 }
  else base

/-- Model of `EnrichmentService._download_submission_logo`: skip SVG
URLs, otherwise the outcome of the HTTP fetch (whose content-type SVG
rejection is folded into `net`). -/
def download_submission_logo (net : String → Bool) (logo_url : String) : Bool :=
  if is_svg_url logo_url then false else net logo_url

/-- Name-verification step of `enrich_submission`: only on a successful
scrape with content data. -/
def enrich_submission_nv (result : EnrichmentResult) (name : String) :
    Option NameVerification :=
  if result.success then
    match result.content_data with
    | some c => some (verify_agent_name name c)
    | none => none
  else none

/-- Canonical-URL step of `enrich_submission`: the truthy `og:url` from
scrape metadata, else the regex scan of the markdown. -/
def enrich_submission_canonical (canonical_scan : String → Option String)
    (result : EnrichmentResult) : Option String :=
  match truthyOpt result.og_url with
  | some c => some c
  | none =>
    match result.markdown with
    | some md => canonical_scan md
    | none => none

/-- Final store step of `enrich_submission`: on success download logo
and screenshot immediately, recording the download status into the
enrichment blob; on failure store the blob unchanged. -/
def enrich_submission_store (net : String → Bool) (result : EnrichmentResult)
    (d4 : EnrichmentData) (sub2 : Submission) : Submission :=
  if result.success then
    let logoStep :=
      match truthyOpt result.logo_url with
      | some lu =>
        if download_submission_logo net lu then
          ({ d4 with logo_downloaded := true }, some lu)
        else ({ d4 with logo_download_failed := true }, sub2.logo)
      | none => (d4, sub2.logo)
    let shotStep :=
      match truthyOpt result.screenshot_url with
      | some su =>
        if net su then
          ({ logoStep.1 with screenshot_downloaded := true }, some su)
        else ({ logoStep.1 with screenshot_download_failed := true }, sub2.screenshot)
      | none => (logoStep.1, sub2.screenshot)
    { sub2 with enrichment_data := some shotStep.1,
                logo := logoStep.2, screenshot := shotStep.2 }
  else
    { sub2 with enrichment_data := some d4 }

/-- Body of `EnrichmentService.enrich_submission` after the
aggregator-extraction step: scrape `url_to_enrich`, attach the
bookkeeping fragments (`_url_extraction`, `_sourcing_metadata`,
`_name_verification`, `_canonical_url`), then run the store step. -/
def enrich_submission_tail (scrape : String → ScrapeOutcome) (net : String → Bool)
    (canonical_scan : String → Option String) (original_url : String)
    (sourcing_metadata : Option SourcingMetadata) (url_to_enrich : String)
    (sub1 : Submission) : Submission :=
  let result := enrich scrape url_to_enrich
  let d0 := result.toData
  let d1 :=
    if original_url ≠ url_to_enrich then
      { d0 with
        url_extraction := some (UrlExtraction.mk original_url url_to_enrich true) }
    else d0
  let d2 :=
    match sourcing_metadata with
    | some m => { d1 with sourcing_metadata := some m }
    | none => d1
  let nv := enrich_submission_nv result sub1.agent_name
  let d3 :=
    match nv with
    | some v => { d2 with name_verification := some v }
    | none => d2
  let sub2 :=
    match nv with
    | some v =>
      if v.should_update && v.extracted_name.isSome then
        { sub1 with agent_name := (v.extracted_name.getD "").take 200 }
      else sub1
    | none => sub1
  let canonical := enrich_submission_canonical canonical_scan result
  let d4 :=
    match canonical with
    | some c => if c ≠ "" then { d3 with canonical_url := some c } else d3
    | none => d3
  enrich_submission_store net result d4 sub2

/-- Model of `EnrichmentService.enrich_submission`: optionally replace
an aggregator URL by the extracted product URL (persisting the new
website), then run the scrape-and-store tail on the resulting URL. -/
def enrich_submission (cfg : FilterConfig) (aggExtract : AggExtraction)
    (scrape : String → ScrapeOutcome) (net : String → Bool)
    (canonical_scan : String → Option String) (sub : Submission) : Submission :=
  let original_url := sub.agent_website
  let sourcing_metadata := sub.enrichment_data.bind EnrichmentData.sourcing_metadata
  let isAgg := is_aggregator_url cfg original_url
      || (sourcing_metadata.map SourcingMetadata.is_aggregator).getD false
  let step1 :=
    if isAgg then
      match extract_product_url_from_aggregator aggExtract with
      | some extracted =>
        if extracted ≠ original_url then
          (extracted, { sub with agent_website := extracted })
        else (original_url, sub)
      | none => (original_url, sub)
    else (original_url, sub)
  enrich_submission_tail scrape net canonical_scan original_url sourcing_metadata
    step1.1 step1.2

/-!
Agent creation from an approved submission
(`EnrichmentService.create_agent_from_submission` and
`_check_for_duplicate_agent`).
-/

/-- Errors of the creation flow: `EnrichmentError` and
`DuplicateAgentError` (which carries the conflicting agent). -/
inductive AgentCreationError where
  | enrichmentError (message : String)
  | duplicateAgentError (message : String) (existing_agent : Agent)
deriving Repr, DecidableEq

/-- Model of `django.utils.text.slugify` (ASCII): lowercase, keep only
word characters, whitespace and hyphens, collapse hyphen/whitespace
runs to a single hyphen, and strip leading/trailing hyphens and
underscores. -/
def slugifyChars (cs : List Char) : List Char :=
  let ascii := cs.filter (fun c => c.toNat < 128)
  let isSpaceC : Char → Bool := fun c =>
    c = ' ' || c = '\t' || c = '\n' || c = '\r' || c.toNat = 11 || c.toNat = 12
  let kept := (lowerL ascii).filter
    (fun c => c.isAlphanum || c = '_' || c = '-' || isSpaceC c)
  let collapsed := kept.foldr
    (fun c acc =>
      if c = '-' || isSpaceC c then
        match acc with
        | '-' :: _ => acc
        | _ => '-' :: acc
      else c :: acc) []
  let isStripC : Char → Bool := fun c => c = '-' || c = '_'
  ((collapsed.dropWhile isStripC).reverse.dropWhile isStripC).reverse

/-- String wrapper of `slugifyChars`. -/
def slugify (s : String) : String := ⟨slugifyChars s.data⟩

/-- Model of `enrichment.is_valid_video_url`: non-empty, not an image
extension, and containing a supported video domain. -/
def is_valid_video_url (url : Option String) : Bool :=
  match url with
  | none => false
  | some u =>
    if u = "" then false
    else
      let ul := lowerL u.data
      let image_exts :=
        [".png".data, ".jpg".data, ".jpeg".data, ".gif".data,
         ".webp".data, ".svg".data, ".bmp".data]
      if image_exts.any (fun e => e.isSuffixOf ul) then false
      else
        ["youtube.com".data, "youtu.be".data, "vimeo.com".data,
         "loom.com".data].any (fun d => substrIn d ul)

/-- Model of `EnrichmentService._check_for_duplicate_agent`: in order,
an existing agent with the same website, the same case-insensitive
name, or the same slug as `slugify(submission.agent_name)` yields a
`DuplicateAgentError` carrying that agent. -/
def check_for_duplicate_agent (agents : List Agent) (sub : Submission) :
    Option AgentCreationError :=
  match agents.find? (fun a => a.website == sub.agent_website) with
  | some ex => some (AgentCreationError.duplicateAgentError
      ("Agent with website \u0027" ++ sub.agent_website
        ++ "\u0027 already exists: \u0027" ++ ex.name ++ "\u0027 (id="
        ++ toString ex.pk ++ ")") ex)
  | none =>
    match agents.find? (fun a => lowerS a.name == lowerS sub.agent_name) with
    | some ex => some (AgentCreationError.duplicateAgentError
        ("Agent with name \u0027" ++ sub.agent_name
          ++ "\u0027 already exists: \u0027" ++ ex.name ++ "\u0027 (id="
          ++ toString ex.pk ++ ")") ex)
    | none =>
      match agents.find? (fun a => a.slug == slugify sub.agent_name) with
      | some ex => some (AgentCreationError.duplicateAgentError
          ("Agent with slug \u0027" ++ slugify sub.agent_name
            ++ "\u0027 already exists: \u0027" ++ ex.name ++ "\u0027 (id="
            ++ toString ex.pk ++ ")") ex)
      | none => none

/-- Model of `EnrichmentService.create_agent_from_submission`: refuse a
missing or failed enrichment snapshot with an `EnrichmentError`, re-run
the duplicate check, then build the `Agent` row (with its child
collections) from the enrichment content, copying the media already
downloaded onto the submission and falling back to a fresh download of
the possibly expired URLs. The database-assigned primary key is
modelled as a fresh number. -/
def create_agent_from_submission (net : String → Bool) (st : ReviewState) :
    Except AgentCreationError Agent :=
  let sub := st.submission
  match sub.enrichment_data with
  | none =>
    Except.error (AgentCreationError.enrichmentError
      ("Submission \u0027" ++ sub.agent_name
        ++ "\u0027 has no enrichment data. Call enrich_submission() first."))
  | some data =>
    if !data.success then
      Except.error (AgentCreationError.enrichmentError
        ("Submission \u0027" ++ sub.agent_name ++ "\u0027 enrichment failed: "
          ++ data.error_message.getD "Unknown error"
          ++ ". Re-run enrichment before approving."))
    else
      match check_for_duplicate_agent st.agents sub with
      | some e => Except.error e
      | none =>
        let c := data.content_data
        let demo := c.bind ContentData.demo_video_url
        let logo :=
          match sub.logo with
          | some l => some l
          | none =>
            match truthyOpt data.logo_url with
            | some u => if is_svg_url u then none else if net u then some u else none
            | none => none
        let shots :=
          match sub.screenshot with
          | some s => [s]
          | none =>
            match truthyOpt data.screenshot_url with
            | some u => if net u then [u] else []
            | none => []
        Except.ok
          { pk := st.agents.length + 1,
            name := sub.agent_name,
            slug := slugify sub.agent_name,
            website := sub.agent_website,
            short_description :=
              ((c.bind ContentData.short_description).getD sub.agent_description).take 250,
            description := (c.bind ContentData.description).getD sub.agent_description,
            pricing_model := (c.bind ContentData.pricing_model).getD "UNKNOWN",
            industry := (c.bind ContentData.industry).getD "UNKNOWN",
            is_open_source := c.bind ContentData.is_open_source,
            twitter_url := c.bind ContentData.twitter_url,
            linkedin_url := c.bind ContentData.linkedin_url,
            demo_video_url := if is_valid_video_url demo then demo else none,
            order := 10,
            features := (c.bind ContentData.features).getD [],
            use_cases := (c.bind ContentData.use_cases).getD [],
            categories :=
              match truthyOpt (c.bind ContentData.category) with
              | some cat => [cat]
              | none => [],
            logo := logo,
            screenshots := shots }

/-- Directory entries after an approval attempt: unchanged when
`create_agent_from_submission` raised, extended by the created agent
otherwise. -/
def agents_after_create (net : String → Bool) (st : ReviewState) : List Agent :=
  match create_agent_from_submission net st with
  | Except.ok a => st.agents ++ [a]
  | Except.error _ => st.agents

/-!
Concrete fixtures used by witnesses and counterexamples.
-/

/-- Sample filter configuration with one aggregator domain. -/
def sampleCfg : FilterConfig :=
  { domain_blocklist := [], aggregator_domains := ["yc.example.com"],
    domain_allowlist := [], path_blocklist := [], github_valid := true }

/-- Sample pending submission discovered on an aggregator page. -/
def samplePending : Submission :=
  { agent_name := "Foo",
    agent_website := "https://yc.example.com/companies/foo",
    agent_description := "A sample agent", source := SubmissionSource.AUTO,
    status := SubmissionStatus.PENDING, needs_manual_review := false,
    ai_review_result := none, enrichment_data := none,
    logo := none, screenshot := none }

/-- Sample review gateway output: approved with confidence 0.9. -/
def sampleApproved : ReviewResult :=
  { decision := "approved", is_ai_agent := true, confidence := mkRat 9 10,
    reasoning := "clearly an agent", flags := [], auto_applied := false }

/-- Sample published directory entry for `https://foo.ai`. -/
def sampleAgent : Agent :=
  { pk := 1, name := "Foo", slug := "foo", website := "https://foo.ai",
    short_description := "sd", description := "d",
    pricing_model := "UNKNOWN", industry := "UNKNOWN",
    is_open_source := none, twitter_url := none, linkedin_url := none,
    demo_video_url := none, order := 10, features := [], use_cases := [],
    categories := [], logo := none, screenshots := [] }

/-- Sample successful enrichment snapshot with no extracted content. -/
def sampleEnrichmentOk : EnrichmentData :=
  EnrichmentResult.toData
    { success := true, error_message := none, content_data := none,
      branding_data := none, logo_url := none, markdown := none,
      screenshot_url := none, og_url := none, final_url := none }

/-- Sample submission whose website duplicates `sampleAgent` and which
was never enriched. -/
def sampleDupNoEnr : Submission :=
  { samplePending with agent_website := "https://foo.ai",
                       enrichment_data := none }

/-- Sample enriched submission whose website duplicates `sampleAgent`. -/
def sampleDupEnriched : Submission :=
  { samplePending with agent_website := "https://foo.ai",
                       enrichment_data := some sampleEnrichmentOk }

/-- Sample stored failed enrichment snapshot. -/
def sampleFailedEnrData : EnrichmentData :=
  (EnrichmentResult.from_error "Firecrawl scrape failed: net down").toData

/-- Sample submission carrying `sampleFailedEnrData`. -/
def sampleFailedEnr : Submission :=
  { samplePending with enrichment_data := some sampleFailedEnrData }

/-- Sample configuration with an aggregator list, a path blocklist that
would match aggregator pages, and GitHub acceptance disabled. -/
def cfgGithubOff : FilterConfig :=
  { domain_blocklist := [], aggregator_domains := ["ycombinator.com"],
    domain_allowlist := [], path_blocklist := ["/companies"],
    github_valid := false }

/-- Sample configuration with a domain blocklist entry. -/
def cfgSpam : FilterConfig :=
  { domain_blocklist := ["spam.com"], aggregator_domains := ["ycombinator.com"],
    domain_allowlist := [], path_blocklist := ["/blog"], github_valid := true }

/-- Sample REJECTED submission occupying `https://foo.ai`. -/
def sampleRejectedFoo : Submission :=
  { samplePending with agent_website := "https://foo.ai",
                       status := SubmissionStatus.REJECTED }

/-- Sample discovery pointing at `https://foo.ai`. -/
def sampleDiscovery : DiscoveredAgent :=
  ⟨"Foo", "https://foo.ai", "desc", "manual", "https://src"⟩

/-- Sample second discovery of the same agent under a `www.` spelling. -/
def sampleDiscovery2 : DiscoveredAgent :=
  ⟨"Foo Again", "https://www.foo.ai/", "desc2", "manual", "https://src2"⟩

/-- Duplicate condition of `_check_for_duplicate_agent`, stated at the
`Prop` level: same website, same case-insensitive name, or same slug. -/
def DupCond (sub : Submission) (a : Agent) : Prop :=
  a.website = sub.agent_website
    ∨ lowerS a.name = lowerS sub.agent_name
    ∨ a.slug = slugify sub.agent_name

/-- Characters that can appear in a well-behaved host: printable, and
none of the delimiters the URL parser reacts to. -/
def hostChar (c : Char) : Bool :=
  decide (32 < c.toNat ∧ c ≠ ':' ∧ c ≠ '/' ∧ c ≠ '?' ∧ c ≠ '#' ∧ c ≠ ';')

/-- Characters that can appear in a well-behaved path: printable,
slashes allowed, and none of the other delimiters. -/
def pathChar (c : Char) : Bool :=
  decide (32 < c.toNat ∧ c ≠ ':' ∧ c ≠ '?' ∧ c ≠ '#' ∧ c ≠ ';')

/-- A well-behaved lowercase host: non-empty, made of `hostChar`
characters, all lowercase, and not itself starting with `www.`. -/
def HostOk (h : String) : Prop :=
  h ≠ "" ∧ (∀ c ∈ h.data, hostChar c = true)
    ∧ (∀ c ∈ h.data, c.toLower = c)
    ∧ ¬ "www.".data.isPrefixOf h.data = true

/-- A well-behaved lowercase path: empty, or starting with `/`, made of
`pathChar` characters, all lowercase, and not ending in `/`. -/
def PathOk (p : String) : Prop :=
  p = "" ∨ ((∃ p2, p.data = '/' :: p2)
    ∧ (∀ c ∈ p.data, pathChar c = true)
    ∧ (∀ c ∈ p.data, c.toLower = c)
    ∧ p.data.getLast? ≠ some '/')

/-!
Character and list toolkit used by the URL proofs.
-/

theorem toNat_ofNat_valid {n : Nat} (h : n.isValidChar) :
    (Char.ofNat n).toNat = n := by
  simp only [Char.ofNat, h, dite_true, Char.ofNatAux, Char.toNat]
  rfl

theorem toLower_toLower (c : Char) : c.toLower.toLower = c.toLower := by
  by_cases h : c.toNat ≥ 65 ∧ c.toNat ≤ 90
  · have hv : (Char.ofNat (c.toNat + 32)).toNat = c.toNat + 32 :=
      toNat_ofNat_valid (Or.inl (by omega))
    have e1 : c.toLower = Char.ofNat (c.toNat + 32) := by
      unfold Char.toLower
      rw [if_pos h]
    rw [e1]
    unfold Char.toLower
    rw [if_neg (by rw [hv]; omega)]
  · have e1 : c.toLower = c := by
      unfold Char.toLower
      rw [if_neg h]
    rw [e1, e1]

theorem lowerL_append (a b : List Char) :
    lowerL (a ++ b) = lowerL a ++ lowerL b := by
  simp [lowerL]

theorem lowerL_eq_self {l : List Char} (h : ∀ c ∈ l, c.toLower = c) :
    lowerL l = l := by
  induction l with
  | nil => rfl
  | cons c t ih =>
    simp only [lowerL, List.map_cons, h c (by simp)]
    have := ih (fun d hd => h d (by simp [hd]))
    simp_all [lowerL]

theorem lowerL_idem (l : List Char) : lowerL (lowerL l) = lowerL l := by
  apply lowerL_eq_self
  intro c hc
  simp only [lowerL, List.mem_map] at hc
  obtain ⟨d, _, rfl⟩ := hc
  exact toLower_toLower d

theorem takeWhile_append_all {α} (p : α → Bool) (l r : List α)
    (h : ∀ a ∈ l, p a = true) :
    (l ++ r).takeWhile p = l ++ r.takeWhile p := by
  induction l with
  | nil => simp
  | cons a t ih =>
    have ha := h a (by simp)
    simp [List.takeWhile_cons, ha, ih (fun x hx => h x (by simp [hx]))]

theorem dropWhile_append_all {α} (p : α → Bool) (l r : List α)
    (h : ∀ a ∈ l, p a = true) :
    (l ++ r).dropWhile p = r.dropWhile p := by
  induction l with
  | nil => simp
  | cons a t ih =>
    have ha := h a (by simp)
    simp [List.dropWhile_cons, ha, ih (fun x hx => h x (by simp [hx]))]

theorem takeWhile_all_eq {α} (p : α → Bool) (l : List α)
    (h : ∀ a ∈ l, p a = true) : l.takeWhile p = l := by
  have := takeWhile_append_all p l [] h
  simpa using this

theorem dropWhile_none_eq {α} (p : α → Bool) (l : List α)
    (h : ∀ a ∈ l, p a = false) : l.dropWhile p = l := by
  cases l with
  | nil => rfl
  | cons a t => simp [List.dropWhile_cons, h a (by simp)]

theorem filter_true_eq {α} (p : α → Bool) (l : List α)
    (h : ∀ a ∈ l, p a = true) : l.filter p = l := by
  induction l with
  | nil => rfl
  | cons a t ih =>
    simp [List.filter_cons, h a (by simp), ih (fun x hx => h x (by simp [hx]))]

theorem contains_eq_false_of {l : List Char} {a : Char}
    (h : ∀ c ∈ l, c ≠ a) : l.contains a = false := by
  induction l with
  | nil => rfl
  | cons c t ih =>
    have hc := h c (by simp)
    have ht := ih (fun x hx => h x (by simp [hx]))
    simp only [List.contains_cons, ht, Bool.or_false, beq_iff_eq]
    exact beq_eq_false_iff_ne.mpr (fun e => hc e.symm)

theorem stripC0_eq_self {l : List Char} (h : ∀ c ∈ l, 32 < c.toNat) :
    stripC0 l = l := by
  unfold stripC0
  have h1 : l.dropWhile (fun c => c.toNat ≤ 32) = l :=
    dropWhile_none_eq _ _ (fun c hc => by
      have := h c hc
      simp
      omega)
  rw [h1]
  have h2 : l.reverse.dropWhile (fun c => c.toNat ≤ 32) = l.reverse :=
    dropWhile_none_eq _ _ (fun c hc => by
      have := h c (by simpa using hc)
      simp
      omega)
  rw [h2, List.reverse_reverse]

theorem removeUnsafe_eq_self {l : List Char} (h : ∀ c ∈ l, 32 < c.toNat) :
    removeUnsafe l = l := by
  unfold removeUnsafe
  apply filter_true_eq
  intro c hc
  have := h c hc
  simp
  omega

theorem stripL_eq_self {l : List Char} (h : ∀ c ∈ l, 32 < c.toNat) :
    stripL l = l := by
  unfold stripL
  have hf : ∀ c ∈ l, isPyWs c = false := by
    intro c hc
    have := h c hc
    simp [isPyWs]
    omega
  have h1 : l.dropWhile isPyWs = l := dropWhile_none_eq _ _ hf
  rw [h1]
  have h2 : l.reverse.dropWhile isPyWs = l.reverse :=
    dropWhile_none_eq _ _ (fun c hc => hf c (by simpa using hc))
  rw [h2, List.reverse_reverse]

theorem hostChar_spec {c : Char} (h : hostChar c = true) :
    32 < c.toNat ∧ c ≠ ':' ∧ c ≠ '/' ∧ c ≠ '?' ∧ c ≠ '#' ∧ c ≠ ';' := by
  simpa [hostChar] using h

theorem pathChar_spec {c : Char} (h : pathChar c = true) :
    32 < c.toNat ∧ c ≠ ':' ∧ c ≠ '?' ∧ c ≠ '#' ∧ c ≠ ';' := by
  simpa [pathChar] using h

theorem mem_of_takeWhile {α} {p : α → Bool} {l : List α} {x}
    (h : x ∈ l.takeWhile p) : x ∈ l :=
  (List.takeWhile_sublist p).subset h

theorem mem_of_dropWhile {α} {p : α → Bool} {l : List α} {x}
    (h : x ∈ l.dropWhile p) : x ∈ l :=
  (List.dropWhile_sublist p).subset h

theorem mem_of_dropN {α} {n : Nat} {l : List α} {x}
    (h : x ∈ l.drop n) : x ∈ l :=
  (List.drop_sublist n l).subset h

theorem mem_of_stripL {l : List Char} {x} (h : x ∈ stripL l) : x ∈ l := by
  unfold stripL at h
  have h1 := List.mem_reverse.mp h
  have h2 := mem_of_dropWhile h1
  have h3 := List.mem_reverse.mp h2
  exact mem_of_dropWhile h3

theorem mem_of_stripC0 {l : List Char} {x} (h : x ∈ stripC0 l) : x ∈ l := by
  unfold stripC0 at h
  have h1 := List.mem_reverse.mp h
  have h2 := mem_of_dropWhile h1
  have h3 := List.mem_reverse.mp h2
  exact mem_of_dropWhile h3

theorem mem_of_removeUnsafe {l : List Char} {x}
    (h : x ∈ removeUnsafe l) : x ∈ l :=
  List.mem_of_mem_filter h

theorem mem_splitParams {l : List Char} {c} (h : c ∈ splitParams l) : c ∈ l := by
  unfold splitParams at h
  split at h
  · rcases List.mem_append.mp h with h1 | h2
    · have h3 := mem_of_dropWhile (List.mem_reverse.mp h1)
      exact List.mem_reverse.mp h3
    · have h3 := List.mem_reverse.mp (mem_of_takeWhile h2)
      exact List.mem_reverse.mp (mem_of_takeWhile h3)
  · exact mem_of_takeWhile h

theorem mem_splitScheme_snd {l : List Char} {c}
    (h : c ∈ (splitScheme l).2) : c ∈ l := by
  unfold splitScheme at h
  cases hpost : l.dropWhile (fun c => c ≠ ':') with
  | nil =>
    rw [hpost] at h
    simpa using h
  | cons a rest =>
    rw [hpost] at h
    cases hpre : l.takeWhile (fun c => c ≠ ':') with
    | nil =>
      rw [hpre] at h
      simpa using h
    | cons c0 t =>
      rw [hpre] at h
      by_cases hv : (c0.isAlpha && (c0 :: t).all isSchemeChar) = true
      · simp only [hv, if_true] at h
        have h2 : c ∈ a :: rest := List.mem_cons_of_mem a h
        rw [← hpost] at h2
        exact mem_of_dropWhile h2
      · simp only [hv, if_false, Bool.false_eq_true] at h
        simpa using h

theorem mem_pyUrlparse_path {cs : List Char} {c}
    (h : c ∈ (pyUrlparse cs).path) : c ∈ cs := by
  unfold pyUrlparse at h
  simp only [] at h
  rcases hsp : splitScheme (removeUnsafe (stripC0 cs)) with ⟨scheme, rest1⟩
  rw [hsp] at h
  simp only at h
  have back : ∀ x, x ∈ rest1 → x ∈ cs := by
    intro x hx
    have h2 : x ∈ (splitScheme (removeUnsafe (stripC0 cs))).2 := by
      rw [hsp]
      exact hx
    exact mem_of_stripC0 (mem_of_removeUnsafe (mem_splitScheme_snd h2))
  split at h
  · rcases hsn : splitNetloc (rest1.drop 2) with ⟨nl, rest2⟩
    rw [hsn] at h
    simp only at h
    have back2 : ∀ x, x ∈ rest2 → x ∈ cs := by
      intro x hx
      have h2 : x ∈ (splitNetloc (rest1.drop 2)).2 := by
        rw [hsn]
        exact hx
      exact back x (mem_of_dropN (mem_of_dropWhile h2))
    split at h
    · exact back2 c (mem_of_takeWhile (mem_of_takeWhile (mem_splitParams h)))
    · exact back2 c (mem_of_takeWhile (mem_of_takeWhile h))
  · split at h
    · exact back c (mem_of_takeWhile (mem_of_takeWhile (mem_splitParams h)))
    · exact back c (mem_of_takeWhile (mem_of_takeWhile h))

/-- Every character of `_get_path`'s result comes from the lowercased
URL, so lowercasing the path again changes nothing. -/
theorem get_path_lower_stable (url : String) :
    lowerL (get_path url).data = (get_path url).data := by
  unfold get_path
  split
  · rfl
  · apply lowerL_eq_self
    intro c hc
    have h1 : c ∈ stripL (lowerL url.data) := mem_pyUrlparse_path hc
    have h2 : c ∈ lowerL url.data := mem_of_stripL h1
    obtain ⟨d, _, rfl⟩ := List.mem_map.mp h2
    exact toLower_toLower d

theorem splitScheme_concrete (sch rest : List Char)
    (hs : sch = "http".data ∨ sch = "https".data) :
    splitScheme (sch ++ ':' :: rest) = (sch, rest) := by
  rcases hs with rfl | rfl <;>
    simp [splitScheme, List.takeWhile_cons, List.dropWhile_cons,
      isSchemeChar, lowerL]

/-- Evaluation of the URL parser on a well-behaved
`scheme://[www.]host[/path]` input. -/
theorem pyUrlparse_scheme (sch w h rest : List Char)
    (hs : sch = "http".data ∨ sch = "https".data)
    (hw : w = [] ∨ w = "www.".data)
    (hh : ∀ c ∈ h, hostChar c = true)
    (hp : ∀ c ∈ rest, pathChar c = true)
    (hr : rest = [] ∨ ∃ r2, rest = '/' :: r2) :
    pyUrlparse (sch ++ ':' :: '/' :: '/' :: (w ++ h ++ rest)) =
      ⟨sch, w ++ h, rest⟩ := by
  have hallc : ∀ c ∈ sch ++ ':' :: '/' :: '/' :: (w ++ h ++ rest), 32 < c.toNat := by
    intro c hc
    simp only [List.mem_append, List.mem_cons] at hc
    rcases hc with h1 | rfl | rfl | rfl | (h2 | h3) | h4
    · rcases hs with rfl | rfl
      · exact (by decide : ∀ x ∈ "http".data, 32 < x.toNat) c h1
      · exact (by decide : ∀ x ∈ "https".data, 32 < x.toNat) c h1
    · decide
    · decide
    · decide
    · rcases hw with rfl | rfl
      · simp at h2
      · exact (by decide : ∀ x ∈ "www.".data, 32 < x.toNat) c h2
    · exact (hostChar_spec (hh c h3)).1
    · exact (pathChar_spec (hp c h4)).1
  unfold pyUrlparse
  simp only []
  rw [stripC0_eq_self hallc, removeUnsafe_eq_self hallc,
    splitScheme_concrete sch _ hs]
  simp only
  have hnet : ∀ c ∈ w ++ h, (c ≠ '/' && c ≠ '?' && c ≠ '#') = true := by
    intro c hc
    rcases List.mem_append.mp hc with h2 | h3
    · rcases hw with rfl | rfl
      · simp at h2
      · exact (by decide : ∀ x ∈ "www.".data, (x ≠ '/' && x ≠ '?' && x ≠ '#') = true) c h2
    · obtain ⟨-, -, hs1, hq, hh1, -⟩ := hostChar_spec (hh c h3)
      simp [hs1, hq, hh1]
  have hdrop : (('/' :: '/' :: (w ++ h ++ rest)).drop 2) = w ++ h ++ rest := rfl
  have hpr : (['/', '/'].isPrefixOf ('/' :: '/' :: (w ++ h ++ rest))) = true := by
    simp [List.isPrefixOf]
  rw [if_pos hpr]
  unfold splitNetloc
  rw [hdrop]
  have hqs : ∀ c ∈ rest, (decide (c ≠ '#') : Bool) = true := by
    intro c hc
    obtain ⟨-, -, -, hq, -⟩ := pathChar_spec (hp c hc)
    simp [hq]
  have hqs2 : ∀ c ∈ rest, (decide (c ≠ '?') : Bool) = true := by
    intro c hc
    obtain ⟨-, -, hq, -, -⟩ := pathChar_spec (hp c hc)
    simp [hq]
  have hnosemi : rest.contains ';' = false := by
    apply contains_eq_false_of
    intro c hc
    exact (pathChar_spec (hp c hc)).2.2.2.2
  rcases hr with rfl | ⟨r2, rfl⟩
  · rw [List.append_nil]
    rw [takeWhile_all_eq _ _ hnet]
    have hde : (w ++ h).dropWhile (fun c => c ≠ '/' && c ≠ '?' && c ≠ '#') = [] := by
      have := dropWhile_append_all (fun c => c ≠ '/' && c ≠ '?' && c ≠ '#') (w ++ h) [] hnet
      simpa using this
    rw [hde]
    simp
  · rw [show w ++ h ++ ('/' :: r2) = (w ++ h) ++ ('/' :: r2) by simp]
    rw [takeWhile_append_all _ _ _ hnet, dropWhile_append_all _ _ _ hnet]
    have ht1 : ('/' :: r2).takeWhile (fun c => c ≠ '/' && c ≠ '?' && c ≠ '#') = [] := by
      simp [List.takeWhile_cons]
    have hd1 : ('/' :: r2).dropWhile (fun c => c ≠ '/' && c ≠ '?' && c ≠ '#') = '/' :: r2 := by
      simp [List.dropWhile_cons]
    rw [ht1, hd1, List.append_nil]
    simp only
    rw [takeWhile_all_eq _ _ hqs]
    rw [takeWhile_all_eq _ _ hqs2]
    rw [if_neg (by
      simp [hnosemi]
      intro hmem1 hmem2
      exact (pathChar_spec (hp ';' (List.mem_cons_of_mem _ hmem2))).2.2.2.2 rfl)]

/-- Evaluation of `urlparse(url.lower().strip())` on a well-behaved
`scheme://[www.]host[path][/]` String. -/
theorem parse_shaped (sch w h p t : String)
    (hs : sch = "http" ∨ sch = "https")
    (hw : w = "" ∨ w = "www.")
    (ht : t = "" ∨ t = "/")
    (hh : HostOk h) (hp : PathOk p) :
    pyUrlparse (stripL (lowerL (sch ++ "://" ++ w ++ h ++ p ++ t).data)) =
      ⟨sch.data, w.data ++ h.data, p.data ++ t.data⟩ := by
  obtain ⟨hne, hchars, hlow, hwww⟩ := hh
  have hdata : (sch ++ "://" ++ w ++ h ++ p ++ t).data
      = sch.data ++ "://".data ++ w.data ++ h.data ++ p.data ++ t.data := by
    simp [String.data_append]
  have hpchars : ∀ c ∈ p.data ++ t.data, pathChar c = true := by
    intro c hcm
    rcases List.mem_append.mp hcm with h1 | h2
    · rcases hp with rfl | ⟨-, hall, -, -⟩
      · simp at h1
      · exact hall c h1
    · rcases ht with rfl | rfl
      · simp at h2
      · exact (by decide : ∀ x ∈ "/".data, pathChar x = true) c h2
  have hlower : lowerL (sch.data ++ "://".data ++ w.data ++ h.data ++ p.data ++ t.data)
      = sch.data ++ "://".data ++ w.data ++ h.data ++ p.data ++ t.data := by
    apply lowerL_eq_self
    intro c hcm
    simp only [List.mem_append] at hcm
    rcases hcm with ((((h1 | h2) | h3) | h4) | h5) | h6
    · rcases hs with rfl | rfl
      · exact (by decide : ∀ x ∈ "http".data, x.toLower = x) c h1
      · exact (by decide : ∀ x ∈ "https".data, x.toLower = x) c h1
    · exact (by decide : ∀ x ∈ "://".data, x.toLower = x) c h2
    · rcases hw with rfl | rfl
      · simp at h3
      · exact (by decide : ∀ x ∈ "www.".data, x.toLower = x) c h3
    · exact hlow c h4
    · rcases hp with rfl | ⟨-, -, hpl, -⟩
      · simp at h5
      · exact hpl c h5
    · rcases ht with rfl | rfl
      · simp at h6
      · exact (by decide : ∀ x ∈ "/".data, x.toLower = x) c h6
  have hgt : ∀ c ∈ sch.data ++ "://".data ++ w.data ++ h.data ++ p.data ++ t.data,
      32 < c.toNat := by
    intro c hcm
    simp only [List.mem_append] at hcm
    rcases hcm with ((((h1 | h2) | h3) | h4) | h5) | h6
    · rcases hs with rfl | rfl
      · exact (by decide : ∀ x ∈ "http".data, 32 < x.toNat) c h1
      · exact (by decide : ∀ x ∈ "https".data, 32 < x.toNat) c h1
    · exact (by decide : ∀ x ∈ "://".data, 32 < x.toNat) c h2
    · rcases hw with rfl | rfl
      · simp at h3
      · exact (by decide : ∀ x ∈ "www.".data, 32 < x.toNat) c h3
    · exact (hostChar_spec (hchars c h4)).1
    · exact (pathChar_spec (hpchars c (List.mem_append_left _ h5))).1
    · exact (pathChar_spec (hpchars c (List.mem_append_right _ h6))).1
  rw [hdata, hlower, stripL_eq_self hgt]
  have hshape : sch.data ++ "://".data ++ w.data ++ h.data ++ p.data ++ t.data
      = sch.data ++ ':' :: '/' :: '/' :: (w.data ++ h.data ++ (p.data ++ t.data)) := by
    have : "://".data = [':', '/', '/'] := rfl
    rw [this]
    simp
  rw [hshape]
  rw [pyUrlparse_scheme sch.data w.data h.data (p.data ++ t.data)
    (by rcases hs with rfl | rfl
        · exact Or.inl rfl
        · exact Or.inr rfl)
    (by rcases hw with rfl | rfl
        · exact Or.inl rfl
        · exact Or.inr rfl)
    hchars hpchars
    (by rcases hp with rfl | ⟨⟨p2, hp2⟩, -, -, -⟩
        · rcases ht with rfl | rfl
          · exact Or.inl rfl
          · exact Or.inr ⟨[], rfl⟩
        · exact Or.inr ⟨p2 ++ t.data, by simp [hp2]⟩)]

theorem string_eq_of_data {a b : String} (h : a.data = b.data) : a = b := by
  cases a
  cases b
  exact congrArg String.mk h

theorem stripWww_www (h : List Char) : stripWww ("www.".data ++ h) = h := by
  unfold stripWww
  rw [if_pos (List.isPrefixOf_iff_prefix.mpr (List.prefix_append _ h))]
  rfl

theorem stripWww_of_not (h : List Char)
    (hw : ¬ "www.".data.isPrefixOf h = true) : stripWww h = h := by
  unfold stripWww
  rw [if_neg hw]

/-- The host and the `www.` prefix a shaped URL parses to, stripped. -/
theorem stripWww_shaped (w h : String) (hw : w = "" ∨ w = "www.")
    (hww : ¬ "www.".data.isPrefixOf h.data = true) :
    stripWww (w.data ++ h.data) = h.data := by
  rcases hw with rfl | rfl
  · simpa using stripWww_of_not h.data hww
  · exact stripWww_www h.data

/-- Model-level evaluation of `_get_domain` on a well-behaved
`scheme://[www.]host[path][/]` String: the domain is the host. -/
theorem get_domain_shaped (sch w h p t : String)
    (hs : sch = "http" ∨ sch = "https")
    (hw : w = "" ∨ w = "www.")
    (ht : t = "" ∨ t = "/")
    (hh : HostOk h) (hp : PathOk p) :
    get_domain (sch ++ "://" ++ w ++ h ++ p ++ t) = h := by
  have hne : (sch ++ "://" ++ w ++ h ++ p ++ t) ≠ "" := by
    intro e
    have e2 := congrArg String.data e
    simp [String.data_append] at e2
  unfold get_domain
  rw [if_neg hne, parse_shaped sch w h p t hs hw ht hh hp]
  simp only []
  have hnl : (w.data ++ h.data) ≠ [] := by
    intro e
    simp at e
    exact hh.1 (string_eq_of_data e.2)
  rw [if_pos hnl]
  rw [stripWww_shaped w h hw hh.2.2.2]

/-- C1 (amended): for every submission and review outcome,
`needs_manual_review` is set exactly when the confidence is strictly
below the threshold; the status changes only when `auto_apply` is on,
the decision is approved or rejected and the confidence is not below
the threshold, in which case the decision is applied and `auto_applied`
is stored as `true`; in every other case the status remains PENDING
with the review result attached. The review step itself never creates a
directory entry: the `Agent` rows pass through unchanged. -/
theorem C1_review_gate (threshold : ℚ) (auto_apply : Bool)
    (result : ReviewResult) (st : ReviewState)
    (hp : st.submission.status = SubmissionStatus.PENDING) :
    ((review_submission threshold auto_apply result st).submission.needs_manual_review = true
      ↔ result.confidence < threshold)
    ∧ ((review_submission threshold auto_apply result st).submission.status
        ≠ SubmissionStatus.PENDING →
        auto_apply = true ∧ ¬ result.confidence < threshold
          ∧ (result.decision = "approved" ∨ result.decision = "rejected"))
    ∧ (auto_apply = true → ¬ result.confidence < threshold →
        result.decision = "approved" →
        (review_submission threshold auto_apply result st).submission.status
          = SubmissionStatus.APPROVED)
    ∧ (auto_apply = true → ¬ result.confidence < threshold →
        result.decision = "rejected" →
        (review_submission threshold auto_apply result st).submission.status
          = SubmissionStatus.REJECTED)
    ∧ (result.confidence < threshold →
        (review_submission threshold auto_apply result st).submission.status
          = SubmissionStatus.PENDING
        ∧ (review_submission threshold auto_apply result st).submission.needs_manual_review
          = true)
    ∧ (auto_apply = false →
        (review_submission threshold auto_apply result st).submission.status
          = SubmissionStatus.PENDING)
    ∧ ((review_submission threshold auto_apply result st).submission.ai_review_result.map
        ReviewResult.auto_applied
        = some (auto_apply && !(decide (result.confidence < threshold))
            && (result.decision == "approved" || result.decision == "rejected")))
    ∧ (review_submission threshold auto_apply result st).agents = st.agents := by
  by_cases hc : result.confidence < threshold <;>
    by_cases ha : auto_apply = true <;>
      by_cases h1 : result.decision = "approved" <;>
        by_cases h2 : result.decision = "rejected" <;>
          simp_all [review_submission]

/-- C1 witness: at threshold 0.7, confidence 0.9, decision approved and
`auto_apply` on, the sample pending submission is auto-approved and the
directory entries are untouched. -/
theorem C1_review_gate_witness :
    samplePending.status = SubmissionStatus.PENDING
    ∧ (review_submission (mkRat 7 10) true sampleApproved
        ⟨[sampleAgent], samplePending⟩).submission.status = SubmissionStatus.APPROVED
    ∧ (review_submission (mkRat 7 10) true sampleApproved
        ⟨[sampleAgent], samplePending⟩).agents = [sampleAgent] := by
  have h := C1_review_gate (mkRat 7 10) true sampleApproved
    ⟨[sampleAgent], samplePending⟩ (by decide)
  exact ⟨by decide, h.2.2.1 rfl (by decide) rfl, h.2.2.2.2.2.2.2⟩

/-- C1 counterexample: with confidence 0.9, decision approved and
`auto_apply` on, `review_submission` transitions the sample submission
to APPROVED but no directory entry is created — the entry-creation
clause of the claim is false for `review_submission` (entries are only
created by the separate approval flow). -/
theorem C1_counterexample :
    (review_submission (mkRat 7 10) true sampleApproved
        ⟨[], samplePending⟩).submission.status = SubmissionStatus.APPROVED
    ∧ (review_submission (mkRat 7 10) true sampleApproved
        ⟨[], samplePending⟩).agents = [] := by
  exact ⟨by decide, by decide⟩

/-!
Claims C2 and C3 — the approval guards of
`create_agent_from_submission`.
-/

/-- When some existing agent satisfies the duplicate condition, the
duplicate check returns a `DuplicateAgentError` carrying an agent that
satisfies it. -/
theorem check_dup_some_of_dup (agents : List Agent) (sub : Submission)
    (h : ∃ a ∈ agents, DupCond sub a) :
    ∃ msg ex, check_for_duplicate_agent agents sub
        = some (AgentCreationError.duplicateAgentError msg ex)
      ∧ ex ∈ agents ∧ DupCond sub ex := by
  cases hw : agents.find? (fun a => a.website == sub.agent_website) with
  | some ex =>
    refine ⟨"Agent with website \u0027" ++ sub.agent_website
        ++ "\u0027 already exists: \u0027" ++ ex.name ++ "\u0027 (id="
        ++ toString ex.pk ++ ")", ex, ?_, List.mem_of_find?_eq_some hw,
      Or.inl (by simpa using List.find?_some hw)⟩
    simp [check_for_duplicate_agent, hw]
  | none =>
    cases hn : agents.find? (fun a => lowerS a.name == lowerS sub.agent_name) with
    | some ex =>
      refine ⟨"Agent with name \u0027" ++ sub.agent_name
          ++ "\u0027 already exists: \u0027" ++ ex.name ++ "\u0027 (id="
          ++ toString ex.pk ++ ")", ex, ?_, List.mem_of_find?_eq_some hn,
        Or.inr (Or.inl (by simpa using List.find?_some hn))⟩
      simp [check_for_duplicate_agent, hw, hn]
    | none =>
      cases hs : agents.find? (fun a => a.slug == slugify sub.agent_name) with
      | some ex =>
        refine ⟨"Agent with slug \u0027" ++ slugify sub.agent_name
            ++ "\u0027 already exists: \u0027" ++ ex.name ++ "\u0027 (id="
            ++ toString ex.pk ++ ")", ex, ?_, List.mem_of_find?_eq_some hs,
          Or.inr (Or.inr (by simpa using List.find?_some hs))⟩
        simp [check_for_duplicate_agent, hw, hn, hs]
      | none =>
        exfalso
        obtain ⟨a, ha, hcond⟩ := h
        have hw2 := List.find?_eq_none.mp hw a ha
        have hn2 := List.find?_eq_none.mp hn a ha
        have hs2 := List.find?_eq_none.mp hs a ha
        rcases hcond with h1 | h1 | h1 <;> simp_all

/-- C2 (amended): for every submission holding a successful enrichment
snapshot whose website, case-insensitive name or slug duplicates an
existing entry, `create_agent_from_submission` raises a
`DuplicateAgentError` carrying a conflicting entry, and no directory
entry is created. (Without a successful enrichment snapshot, the
enrichment guard fires first with an `EnrichmentError` instead.) -/
theorem C2_duplicate_guard (net : String → Bool) (st : ReviewState)
    (henr : ∃ d, st.submission.enrichment_data = some d ∧ d.success = true)
    (hdup : ∃ a ∈ st.agents, DupCond st.submission a) :
    (∃ msg ex, create_agent_from_submission net st
        = Except.error (AgentCreationError.duplicateAgentError msg ex)
      ∧ ex ∈ st.agents ∧ DupCond st.submission ex)
    ∧ agents_after_create net st = st.agents := by
  obtain ⟨d, hd, hds⟩ := henr
  obtain ⟨msg, ex, hck, hmem, hcond⟩ := check_dup_some_of_dup st.agents st.submission hdup
  refine ⟨⟨msg, ex, ?_, hmem, hcond⟩, ?_⟩
  · simp [create_agent_from_submission, hd, hds, hck]
  · simp [agents_after_create, create_agent_from_submission, hd, hds, hck]

/-- C2 witness: an enriched submission whose website equals
the website of `sampleAgent` is refused as a duplicate and the directory is
unchanged. -/
theorem C2_duplicate_guard_witness :
    (∃ d, sampleDupEnriched.enrichment_data = some d ∧ d.success = true)
    ∧ (∃ a ∈ [sampleAgent], DupCond sampleDupEnriched a)
    ∧ ((∃ msg ex, create_agent_from_submission (fun _ => true)
          ⟨[sampleAgent], sampleDupEnriched⟩
          = Except.error (AgentCreationError.duplicateAgentError msg ex)
        ∧ ex ∈ [sampleAgent] ∧ DupCond sampleDupEnriched ex)
      ∧ agents_after_create (fun _ => true) ⟨[sampleAgent], sampleDupEnriched⟩
          = [sampleAgent]) := by
  refine ⟨⟨sampleEnrichmentOk, by decide, by decide⟩,
    ⟨sampleAgent, by simp, Or.inl (by decide)⟩, ?_⟩
  exact C2_duplicate_guard (fun _ => true) ⟨[sampleAgent], sampleDupEnriched⟩
    ⟨sampleEnrichmentOk, by decide, by decide⟩
    ⟨sampleAgent, by simp, Or.inl (by decide)⟩

/-- C2 counterexample: the claim as stated quantifies over every
submission with a duplicate website, but a duplicate submission that
was never enriched raises an `EnrichmentError`, not a
`DuplicateAgentError` — the enrichment guard runs before the duplicate
check. -/
theorem C2_counterexample :
    sampleAgent.website = sampleDupNoEnr.agent_website
    ∧ create_agent_from_submission (fun _ => true) ⟨[sampleAgent], sampleDupNoEnr⟩
        = Except.error (AgentCreationError.enrichmentError
          ("Submission \u0027Foo\u0027 has no enrichment data. "
            ++ "Call enrich_submission() first.")) := by
  exact ⟨rfl, rfl⟩

/-- Helper for C3: a scrape that raises is mapped by `enrich_submission`
to a stored failed snapshot and never changes the submission status. -/
theorem enrich_submission_exn (cfg : FilterConfig) (agg : AggExtraction)
    (net2 : String → Bool) (can : String → Option String)
    (sub : Submission) (e : String) :
    ((enrich_submission cfg agg (fun _ => ScrapeOutcome.exn e) net2 can sub).enrichment_data.map
      EnrichmentData.success = some false)
    ∧ (enrich_submission cfg agg (fun _ => ScrapeOutcome.exn e) net2 can sub).status
        = sub.status := by
  unfold enrich_submission enrich_submission_tail enrich_submission_nv
    enrich_submission_canonical enrich_submission_store
  simp only [enrich, EnrichmentResult.from_error, EnrichmentResult.toData, truthyOpt]
  repeat' split
  all_goals simp_all [EnrichmentResult.toData]

/-- C3: a submission whose enrichment snapshot is absent or failed is
refused by `create_agent_from_submission` with an `EnrichmentError`
whose message reports why (missing enrichment, or the stored error
message); no directory entry is created; and a failed enrichment scrape
is stored as a `success=false` result — never raised — leaving the
submission status untouched. -/
theorem C3_failed_enrichment_blocks_approval (net : String → Bool) (st : ReviewState)
    (hfail : st.submission.enrichment_data = none
      ∨ ∃ d, st.submission.enrichment_data = some d ∧ d.success = false) :
    (st.submission.enrichment_data = none →
      create_agent_from_submission net st = Except.error (AgentCreationError.enrichmentError
        ("Submission \u0027" ++ st.submission.agent_name
          ++ "\u0027 has no enrichment data. Call enrich_submission() first.")))
    ∧ (∀ d, st.submission.enrichment_data = some d → d.success = false →
        create_agent_from_submission net st = Except.error (AgentCreationError.enrichmentError
          ("Submission \u0027" ++ st.submission.agent_name ++ "\u0027 enrichment failed: "
            ++ d.error_message.getD "Unknown error" ++ ". Re-run enrichment before approving.")))
    ∧ (∃ msg, create_agent_from_submission net st
        = Except.error (AgentCreationError.enrichmentError msg))
    ∧ agents_after_create net st = st.agents
    ∧ (∀ e url, enrich (fun _ => ScrapeOutcome.exn e) url
        = EnrichmentResult.from_error ("Firecrawl scrape failed: " ++ e))
    ∧ (∀ cfg agg net2 can (sub : Submission) e,
        ((enrich_submission cfg agg (fun _ => ScrapeOutcome.exn e) net2 can sub).enrichment_data.map
          EnrichmentData.success = some false)
        ∧ (enrich_submission cfg agg (fun _ => ScrapeOutcome.exn e) net2 can sub).status
            = sub.status) := by
  have herr : ∃ msg, create_agent_from_submission net st
      = Except.error (AgentCreationError.enrichmentError msg) := by
    rcases hfail with hnone | ⟨d, hd, hds⟩
    · refine ⟨"Submission \u0027" ++ st.submission.agent_name
        ++ "\u0027 has no enrichment data. Call enrich_submission() first.", ?_⟩
      simp [create_agent_from_submission, hnone]
    · refine ⟨"Submission \u0027" ++ st.submission.agent_name ++ "\u0027 enrichment failed: "
        ++ d.error_message.getD "Unknown error" ++ ". Re-run enrichment before approving.", ?_⟩
      simp [create_agent_from_submission, hd, hds]
  refine ⟨?_, ?_, herr, ?_, fun e url => rfl, fun cfg agg net2 can sub e => enrich_submission_exn cfg agg net2 can sub e⟩
  · intro hnone
    simp [create_agent_from_submission, hnone]
  · intro d hd hds
    simp [create_agent_from_submission, hd, hds]
  · obtain ⟨msg, hmsg⟩ := herr
    simp [agents_after_create, hmsg]

/-- C3 witness: the sample submission with a stored failed snapshot is
refused with the stored error message, and the directory entries are
unchanged. -/
theorem C3_failed_enrichment_witness :
    (sampleFailedEnr.enrichment_data = some sampleFailedEnrData
      ∧ sampleFailedEnrData.success = false)
    ∧ create_agent_from_submission (fun _ => true) ⟨[sampleAgent], sampleFailedEnr⟩
        = Except.error (AgentCreationError.enrichmentError
          ("Submission \u0027Foo\u0027 enrichment failed: Firecrawl scrape failed: "
            ++ "net down. Re-run enrichment before approving."))
    ∧ agents_after_create (fun _ => true) ⟨[sampleAgent], sampleFailedEnr⟩
        = [sampleAgent] := by
  have h := C3_failed_enrichment_blocks_approval (fun _ => true)
    ⟨[sampleAgent], sampleFailedEnr⟩
    (Or.inr ⟨sampleFailedEnrData, rfl, rfl⟩)
  exact ⟨⟨rfl, rfl⟩, h.2.1 sampleFailedEnrData rfl rfl, h.2.2.2.1⟩

/-- C4: URL classification is total over the six tags and is evaluated
first-match-wins in the order blocked, aggregator, github, allowlist,
non_root, normal; when the GitHub switch is disabled the github case
yields blocked instead; and a URL on the aggregator-domain list whose
domain is not blocklisted is classified aggregator (the path blocklist
never demotes it to blocked). -/
theorem C4_classification_totality_precedence (cfg : FilterConfig) (url : String) :
    (get_url_classification cfg url = URLClassification.blocked
      ∨ get_url_classification cfg url = URLClassification.aggregator
      ∨ get_url_classification cfg url = URLClassification.github
      ∨ get_url_classification cfg url = URLClassification.allowlist
      ∨ get_url_classification cfg url = URLClassification.non_root
      ∨ get_url_classification cfg url = URLClassification.normal)
    ∧ (is_blocked_url cfg url = true →
        get_url_classification cfg url = URLClassification.blocked)
    ∧ (is_blocked_url cfg url = false → is_aggregator_url cfg url = true →
        get_url_classification cfg url = URLClassification.aggregator)
    ∧ (is_blocked_url cfg url = false → is_aggregator_url cfg url = false →
        is_github_url url = true →
        get_url_classification cfg url
          = (if cfg.github_valid then URLClassification.github
             else URLClassification.blocked))
    ∧ (is_blocked_url cfg url = false → is_aggregator_url cfg url = false →
        is_github_url url = false → is_allowlisted_url cfg url = true →
        get_url_classification cfg url = URLClassification.allowlist)
    ∧ (is_blocked_url cfg url = false → is_aggregator_url cfg url = false →
        is_github_url url = false → is_allowlisted_url cfg url = false →
        is_non_root_url url = true →
        get_url_classification cfg url = URLClassification.non_root)
    ∧ (is_blocked_url cfg url = false → is_aggregator_url cfg url = false →
        is_github_url url = false → is_allowlisted_url cfg url = false →
        is_non_root_url url = false →
        get_url_classification cfg url = URLClassification.normal)
    ∧ (is_aggregator_url cfg url = true → domainBlocklisted cfg url = false →
        get_url_classification cfg url = URLClassification.aggregator) := by
  refine ⟨?_, ?_, ?_, ?_, ?_, ?_, ?_, ?_⟩
  · unfold get_url_classification
    split_ifs <;> simp
  · intro hb
    simp [get_url_classification, hb]
  · intro hb ha
    simp [get_url_classification, hb, ha]
  · intro hb ha hg
    simp [get_url_classification, hb, ha, hg]
  · intro hb ha hg hw
    simp [get_url_classification, hb, ha, hg, hw]
  · intro hb ha hg hw hn
    simp [get_url_classification, hb, ha, hg, hw, hn]
  · intro hb ha hg hw hn
    simp [get_url_classification, hb, ha, hg, hw, hn]
  · intro ha hd
    have hagg : aggregatorDomain cfg url = true := ha
    have hb : is_blocked_url cfg url = false := by
      simp [is_blocked_url, hd, hagg]
    simp [get_url_classification, hb, ha]

/-- C4 witness: with aggregator domain `ycombinator.com`, blocked path
`/companies` and GitHub acceptance disabled, an aggregator companies page
is classified aggregator (path blocklist exempt) and a GitHub URL is
classified blocked. -/
theorem C4_classification_witness :
    (is_aggregator_url cfgGithubOff "https://www.ycombinator.com/companies/foo" = true
      ∧ domainBlocklisted cfgGithubOff "https://www.ycombinator.com/companies/foo" = false
      ∧ pathBlocklisted cfgGithubOff "https://www.ycombinator.com/companies/foo" = true
      ∧ get_url_classification cfgGithubOff "https://www.ycombinator.com/companies/foo"
          = URLClassification.aggregator)
    ∧ (is_blocked_url cfgGithubOff "https://github.com/octo/repo" = false
      ∧ is_aggregator_url cfgGithubOff "https://github.com/octo/repo" = false
      ∧ is_github_url "https://github.com/octo/repo" = true
      ∧ get_url_classification cfgGithubOff "https://github.com/octo/repo"
          = URLClassification.blocked) := by
  have h1 := C4_classification_totality_precedence cfgGithubOff
    "https://www.ycombinator.com/companies/foo"
  have h2 := C4_classification_totality_precedence cfgGithubOff
    "https://github.com/octo/repo"
  refine ⟨⟨by decide, by decide, by decide,
      h1.2.2.2.2.2.2.2 (by decide) (by decide)⟩,
    ⟨by decide, by decide, by decide, ?_⟩⟩
  have := h2.2.2.2.1 (by decide) (by decide) (by decide)
  simpa [cfgGithubOff] using this

/-- Unfolding of `domain_matches` on non-empty arguments. -/
theorem domain_matches_data (d p : String) (hd : d ≠ "") (hp : p ≠ "") :
    domain_matches d p =
      (if "*.".data.isPrefixOf (lowerL p.data) then
        (lowerL d.data == List.drop 2 (lowerL p.data)
          || List.isSuffixOf ('.' :: List.drop 2 (lowerL p.data)) (lowerL d.data))
      else (lowerL d.data == lowerL p.data
          || List.isSuffixOf ('.' :: lowerL p.data) (lowerL d.data))) := by
  unfold domain_matches
  rw [if_neg (by simp [hd, hp])]

/-- C5 counterexample: the pattern `example.com` carries no `*.` wildcard
prefix, yet `domain_matches` accepts the distinct subdomain
`sub.example.com`, so a non-wildcard pattern does not match only the
exactly equal domain. -/
theorem C5_counterexample :
    domain_matches "sub.example.com" "example.com" = true
    ∧ ("sub.example.com" : String) ≠ "example.com"
    ∧ "*.".data.isPrefixOf (lowerL ("example.com" : String).data) = false := by
  decide

/-- C5: domain matching is case-insensitive (lowercasing both arguments
does not change the verdict); a wildcard pattern `*.base` matches exactly
`base` itself and its dot-separated subdomains; but a pattern without the
wildcard prefix also matches every subdomain of the pattern, by the very
same equal-or-dot-suffix test, rather than only the equal domain; and on
a well-behaved `scheme://[www.]host[path]` URL the domain compared is the
host with `www.` stripped. -/
theorem C5_domain_matching :
    (∀ d p : String, domain_matches (lowerS d) (lowerS p) = domain_matches d p)
    ∧ (∀ d base : String, d ≠ "" →
        (domain_matches d ("*." ++ base) = true ↔
          (lowerL d.data = lowerL base.data
            ∨ ('.' :: lowerL base.data) <:+ lowerL d.data)))
    ∧ (∀ d p : String, d ≠ "" → p ≠ "" →
        "*.".data.isPrefixOf (lowerL p.data) = false →
        (domain_matches d p = true ↔
          (lowerL d.data = lowerL p.data
            ∨ ('.' :: lowerL p.data) <:+ lowerL d.data)))
    ∧ (∀ sch w h p t : String, (sch = "http" ∨ sch = "https") →
        (w = "" ∨ w = "www.") → (t = "" ∨ t = "/") → HostOk h → PathOk p →
        get_domain (sch ++ "://" ++ w ++ h ++ p ++ t) = h) := by
  have hempty : ∀ s : String, lowerS s = "" → s = "" := by
    intro s h
    have h2 := congrArg String.data h
    simp only [lowerS] at h2
    cases s with
    | mk data =>
      simp only [lowerL, List.map_eq_nil_iff] at h2
      exact congrArg String.mk h2
  refine ⟨?_, ?_, ?_, ?_⟩
  · intro d p
    by_cases hde : d = ""
    · subst hde
      rfl
    · by_cases hpe : p = ""
      · subst hpe
        have h1 : lowerS "" = "" := rfl
        rw [h1]
        unfold domain_matches
        rw [if_pos (by simp), if_pos (by simp)]
      · have hdl : lowerS d ≠ "" := fun h => hde (hempty d h)
        have hpl : lowerS p ≠ "" := fun h => hpe (hempty p h)
        rw [domain_matches_data (lowerS d) (lowerS p) hdl hpl,
          domain_matches_data d p hde hpe]
        simp only [show (lowerS d).data = lowerL d.data from rfl,
          show (lowerS p).data = lowerL p.data from rfl, lowerL_idem]
  · intro d base hd
    have hpne : ("*." ++ base : String) ≠ "" := by
      intro h
      have h2 := congrArg String.data h
      simp [String.data_append] at h2
    rw [domain_matches_data d ("*." ++ base) hd hpne]
    have hdat : ("*." ++ base : String).data = '*' :: '.' :: base.data := rfl
    rw [hdat]
    have hlow : lowerL ('*' :: '.' :: base.data) = '*' :: '.' :: lowerL base.data := by
      simp only [lowerL, List.map_cons]
      rw [show ('*').toLower = '*' from by decide, show ('.').toLower = '.' from by decide]
    rw [hlow]
    rw [if_pos (show "*.".data.isPrefixOf ('*' :: '.' :: lowerL base.data) = true by
      show List.isPrefixOf ['*', '.'] ('*' :: '.' :: lowerL base.data) = true
      simp [List.isPrefixOf])]
    simp [List.isSuffixOf_iff_suffix]
  · intro d p hd hp hpre
    rw [domain_matches_data d p hd hp]
    rw [if_neg (by simp [hpre])]
    simp [List.isSuffixOf_iff_suffix]
  · intro sch w h p t hs hw ht hh hp
    exact get_domain_shaped sch w h p t hs hw ht hh hp

/-- C5 witness: the wildcard pattern accepts a mixed-case subdomain, the
non-wildcard anomaly accepts a subdomain of the plain pattern, and the
domain compared for `https://www.foo.io/pricing` is `foo.io`. -/
theorem C5_domain_matching_witness :
    domain_matches "SUB.Example.COM" ("*." ++ "example.com") = true
    ∧ domain_matches "app.foo.io" "foo.io" = true
    ∧ get_domain ("https" ++ "://" ++ "www." ++ "foo.io" ++ "/pricing" ++ "") = "foo.io" := by
  have hmain := C5_domain_matching
  refine ⟨?_, ?_, ?_⟩
  · exact (hmain.2.1 "SUB.Example.COM" "example.com" (by decide)).mpr (by right; decide)
  · exact (hmain.2.2.1 "app.foo.io" "foo.io" (by decide) (by decide) (by decide)).mpr
      (by right; decide)
  · exact hmain.2.2.2 "https" "www." "foo.io" "/pricing" "" (Or.inr rfl) (Or.inr rfl)
      (Or.inl rfl) ⟨by decide, by decide, by decide, by decide⟩
      (Or.inr ⟨⟨"pricing".data, rfl⟩, by decide, by decide, by decide⟩)

/-- C6 counterexample: with GitHub acceptance disabled a GitHub URL is
classified blocked while `get_block_reason` returns `none`; and an
aggregator companies page is classified aggregator, not blocked, while
`get_block_reason` still reports a blocked-path reason. -/
theorem C6_counterexample :
    (get_url_classification cfgGithubOff "https://github.com/octo/repo"
        = URLClassification.blocked
      ∧ get_block_reason cfgGithubOff "https://github.com/octo/repo" = none)
    ∧ (get_url_classification cfgGithubOff "https://www.ycombinator.com/companies/foo"
        ≠ URLClassification.blocked
      ∧ get_block_reason cfgGithubOff "https://www.ycombinator.com/companies/foo"
        = some ("Path contains blocked pattern \u0027/companies\u0027")) := by
  decide

/-- C6: `get_block_reason` returns a reason exactly when the domain
blocklist or the path blocklist matches — naming the matching blocked
domain when one exists — so a blocked classification guarantees a reason
only when it did not arise from the disabled-GitHub demotion, and a
returned reason guarantees a blocked classification only when the domain
is not aggregator-listed. -/
theorem C6_block_reason (cfg : FilterConfig) (url : String) :
    ((get_block_reason cfg url).isSome = true ↔
      (domainBlocklisted cfg url = true ∨ pathBlocklisted cfg url = true))
    ∧ (get_url_classification cfg url = URLClassification.blocked →
        is_github_url url = true ∨ (get_block_reason cfg url).isSome = true)
    ∧ (∀ b, cfg.domain_blocklist.find? (fun x => domain_matches (get_domain url) x)
          = some b →
        get_block_reason cfg url
          = some ("Domain \u0027" ++ b ++ "\u0027 is in blocklist"))
    ∧ ((get_block_reason cfg url).isSome = true →
        is_blocked_url cfg url = true ∨ aggregatorDomain cfg url = true) := by
  have hfixf : (fun b : String => substrIn (lowerL b.data) (lowerL (get_path url).data))
      = (fun b : String => substrIn (lowerL b.data) (get_path url).data) := by
    funext b
    rw [get_path_lower_stable]
  have hiff : (get_block_reason cfg url).isSome = true ↔
      (domainBlocklisted cfg url = true ∨ pathBlocklisted cfg url = true) := by
    unfold get_block_reason
    rw [hfixf]
    cases hfd : cfg.domain_blocklist.find? (fun b => domain_matches (get_domain url) b) with
    | some b =>
      simp only [Option.isSome_some, true_iff]
      left
      unfold domainBlocklisted
      rw [List.any_eq_true]
      exact ⟨b, List.mem_of_find?_eq_some hfd, List.find?_some hfd⟩
    | none =>
      cases hfp : cfg.path_blocklist.find?
          (fun b => substrIn (lowerL b.data) (get_path url).data) with
      | some b =>
        simp only [Option.isSome_some, true_iff]
        right
        unfold pathBlocklisted
        rw [List.any_eq_true]
        have hpb := List.find?_some hfp
        exact ⟨b, List.mem_of_find?_eq_some hfp, hpb⟩
      | none =>
        simp only [Option.isSome_none, Bool.false_eq_true, false_iff]
        rintro (hdom | hpath)
        · unfold domainBlocklisted at hdom
          rw [List.any_eq_true] at hdom
          obtain ⟨x, hx, hpx⟩ := hdom
          exact List.find?_eq_none.mp hfd x hx hpx
        · unfold pathBlocklisted at hpath
          rw [List.any_eq_true] at hpath
          obtain ⟨x, hx, hpx⟩ := hpath
          exact List.find?_eq_none.mp hfp x hx hpx
  refine ⟨hiff, ?_, ?_, ?_⟩
  · intro hcl
    by_cases hb : is_blocked_url cfg url = true
    · right
      rw [hiff]
      unfold is_blocked_url at hb
      by_cases hd : domainBlocklisted cfg url = true
      · exact Or.inl hd
      · right
        rw [if_neg hd] at hb
        by_cases ha : aggregatorDomain cfg url = true
        · rw [if_pos ha] at hb
          exact absurd hb (by decide)
        · rwa [if_neg ha] at hb
    · unfold get_url_classification at hcl
      rw [if_neg hb] at hcl
      by_cases ha : is_aggregator_url cfg url = true
      · rw [if_pos ha] at hcl
        exact absurd hcl (by decide)
      · rw [if_neg ha] at hcl
        by_cases hg : is_github_url url = true
        · exact Or.inl hg
        · rw [if_neg hg] at hcl
          by_cases hw : is_allowlisted_url cfg url = true
          · rw [if_pos hw] at hcl
            exact absurd hcl (by decide)
          · rw [if_neg hw] at hcl
            by_cases hn : is_non_root_url url = true
            · rw [if_pos hn] at hcl
              exact absurd hcl (by decide)
            · rw [if_neg hn] at hcl
              exact absurd hcl (by decide)
  · intro b hfb
    unfold get_block_reason
    rw [hfb]
  · intro hs
    rw [hiff] at hs
    by_cases hd : domainBlocklisted cfg url = true
    · left
      unfold is_blocked_url
      rw [if_pos hd]
    · rcases hs with h | h
      · exact absurd h hd
      · by_cases ha : aggregatorDomain cfg url = true
        · exact Or.inr ha
        · left
          unfold is_blocked_url
          rw [if_neg hd, if_neg ha]
          exact h

/-- C6 witness: a URL whose domain is on the blocklist gets the
domain-naming reason, the reason is present, and the URL is blocked. -/
theorem C6_block_reason_witness :
    (get_block_reason cfgSpam "https://spam.com/deals").isSome = true
    ∧ get_block_reason cfgSpam "https://spam.com/deals"
        = some ("Domain \u0027" ++ "spam.com" ++ "\u0027 is in blocklist")
    ∧ is_blocked_url cfgSpam "https://spam.com/deals" = true := by
  have h := C6_block_reason cfgSpam "https://spam.com/deals"
  refine ⟨h.1.mpr (Or.inl (by decide)), h.2.2.1 "spam.com" (by decide), ?_⟩
  rcases h.2.2.2 (h.1.mpr (Or.inl (by decide))) with hb | ha
  · exact hb
  · exact absurd ha (by decide)

/-- C7: the dedup working set built by `_get_existing_urls` contains a
URL exactly when it is the non-empty normalized website of some
directory entry or of some non-REJECTED submission; hence a URL whose
normalized form occurs only among REJECTED submissions is absent, and
its rediscovery survives the loop: one submission is created and no
duplicate is counted. -/
theorem C7_dedup_seeding :
    (∀ (agents : List Agent) (subs : List Submission) (u : String),
        u ∈ get_existing_urls agents subs ↔
          (u ≠ "" ∧ ((∃ a ∈ agents, normalize_url a.website = u)
            ∨ (∃ s ∈ subs, s.status ≠ SubmissionStatus.REJECTED
                ∧ normalize_url s.agent_website = u))))
    ∧ (∀ (cfg : FilterConfig) (agents : List Agent) (subs : List Submission)
        (source_id : String) (d : DiscoveredAgent),
        (∀ a ∈ agents, normalize_url a.website ≠ normalize_url d.website) →
        (∀ s ∈ subs, normalize_url s.agent_website = normalize_url d.website →
          s.status = SubmissionStatus.REJECTED) →
        get_url_classification cfg d.website ≠ URLClassification.blocked →
        normalize_url d.website ≠ "" →
        (normalize_url d.website ∉ get_existing_urls agents subs
          ∧ (process_discoveries cfg (get_existing_urls agents subs) source_id [d]).2
              = [make_submission source_id d (get_url_classification cfg d.website)]
          ∧ (process_discoveries cfg (get_existing_urls agents subs)
              source_id [d]).1.duplicate_count = 0)) := by
  have hmem : ∀ (agents : List Agent) (subs : List Submission) (u : String),
      u ∈ get_existing_urls agents subs ↔
        (u ≠ "" ∧ ((∃ a ∈ agents, normalize_url a.website = u)
          ∨ (∃ s ∈ subs, s.status ≠ SubmissionStatus.REJECTED
              ∧ normalize_url s.agent_website = u))) := by
    intro agents subs u
    unfold get_existing_urls
    simp only [List.mem_append, List.mem_filter, List.mem_map, decide_eq_true_eq]
    constructor
    · rintro (⟨⟨a, ha, rfl⟩, hne⟩ | ⟨⟨s, ⟨hs, hstat⟩, rfl⟩, hne⟩)
      · exact ⟨hne, Or.inl ⟨a, ha, rfl⟩⟩
      · exact ⟨hne, Or.inr ⟨s, hs, hstat, rfl⟩⟩
    · rintro ⟨hne, ⟨a, ha, rfl⟩ | ⟨s, hs, hstat, rfl⟩⟩
      · exact Or.inl ⟨⟨a, ha, rfl⟩, hne⟩
      · exact Or.inr ⟨⟨s, ⟨hs, hstat⟩, rfl⟩, hne⟩
  refine ⟨hmem, ?_⟩
  intro cfg agents subs source_id d hag hsub hcl hne
  have hnotin : normalize_url d.website ∉ get_existing_urls agents subs := by
    intro hin
    rcases (hmem agents subs (normalize_url d.website)).mp hin with
      ⟨-, ⟨a, ha, he⟩ | ⟨s, hs, hstat, he⟩⟩
    · exact hag a ha he
    · exact hstat (hsub s hs he)
  have hgateneg : ¬((decide (normalize_url d.website = "")
      || (get_existing_urls agents subs).contains (normalize_url d.website)) = true) := by
    simp only [Bool.or_eq_true, decide_eq_true_eq]
    rintro (h | h)
    · exact hne h
    · exact hnotin (List.elem_iff.mp h)
  refine ⟨hnotin, ?_, ?_⟩
  · unfold process_discoveries
    simp only [List.foldl_cons, List.foldl_nil]
    unfold process_one
    simp only []
    rw [if_neg hcl, if_neg hgateneg]
    simp
  · unfold process_discoveries
    simp only [List.foldl_cons, List.foldl_nil]
    unfold process_one
    simp only []
    rw [if_neg hcl, if_neg hgateneg]

/-- C7 witness: a URL present only in a REJECTED submission is absent
from the dedup set and its rediscovery yields one created submission. -/
theorem C7_dedup_seeding_witness :
    normalize_url "https://foo.ai" ∉ get_existing_urls [] [sampleRejectedFoo]
    ∧ (process_discoveries sampleCfg (get_existing_urls [] [sampleRejectedFoo])
        "manual" [sampleDiscovery]).2
      = [make_submission "manual" sampleDiscovery
          (get_url_classification sampleCfg "https://foo.ai")] := by
  have h := (C7_dedup_seeding).2 sampleCfg [] [sampleRejectedFoo] "manual" sampleDiscovery
    (by intro a ha; cases ha)
    (by
      intro s hs he
      cases hs with
      | head => rfl
      | tail _ h2 => cases h2)
    (by decide) (by decide)
  exact ⟨h.1, h.2.1⟩

/-- C8: when two discoveries in one run share a normalized URL, neither
is blocked and the URL is new to the seeded set, exactly the earlier
discovery produces a submission and the later one increments the
duplicate counter. -/
theorem C8_in_batch_dedup (cfg : FilterConfig) (existing : List String)
    (source_id : String) (d1 d2 : DiscoveredAgent)
    (h12 : normalize_url d1.website = normalize_url d2.website)
    (hc1 : get_url_classification cfg d1.website ≠ URLClassification.blocked)
    (hc2 : get_url_classification cfg d2.website ≠ URLClassification.blocked)
    (hne : normalize_url d1.website ≠ "")
    (hnotin : normalize_url d1.website ∉ existing) :
    (process_discoveries cfg existing source_id [d1, d2]).2
      = [make_submission source_id d1 (get_url_classification cfg d1.website)]
    ∧ (process_discoveries cfg existing source_id [d1, d2]).1.duplicate_count = 1 := by
  unfold process_discoveries
  simp only [List.foldl_cons, List.foldl_nil]
  unfold process_one
  simp only []
  have hg1 : ¬((decide (normalize_url d1.website = "")
      || existing.contains (normalize_url d1.website)) = true) := by
    simp only [Bool.or_eq_true, decide_eq_true_eq]
    rintro (h | h)
    · exact hne h
    · exact hnotin (List.elem_iff.mp h)
  rw [if_neg hc1, if_neg hg1, if_neg hc2]
  have hg2 : (normalize_url d1.website :: existing).contains (normalize_url d2.website)
      = true := by
    rw [← h12]
    simp [List.elem_iff]
  constructor
  · split_ifs with hif
    · simp
    · exfalso
      apply hif
      simp [List.elem_iff, ← h12]
  · split_ifs with hif
    · rfl
    · exfalso
      apply hif
      simp [List.elem_iff, ← h12]

/-- C8 witness: `https://foo.ai` and `https://www.foo.ai/` normalize
identically, so of the two discoveries only the first creates a
submission and one duplicate is counted. -/
theorem C8_in_batch_dedup_witness :
    (process_discoveries sampleCfg [] "manual" [sampleDiscovery, sampleDiscovery2]).2
      = [make_submission "manual" sampleDiscovery
          (get_url_classification sampleCfg "https://foo.ai")]
    ∧ (process_discoveries sampleCfg [] "manual"
        [sampleDiscovery, sampleDiscovery2]).1.duplicate_count = 1 :=
  C8_in_batch_dedup sampleCfg [] "manual" sampleDiscovery sampleDiscovery2
    (by decide) (by decide) (by decide) (by decide) (by intro h; cases h)

/-- Projections of the scrape-and-store tail: the website is the one it
was handed, the stored `_url_extraction` fragment records the handover
exactly when the URL changed, and the stored `success` is that of the
scrape of the enriched URL. -/
theorem enrich_submission_store_website (net : String → Bool)
    (result : EnrichmentResult) (d4 : EnrichmentData) (sub2 : Submission) :
    (enrich_submission_store net result d4 sub2).agent_website
      = sub2.agent_website := by
  unfold enrich_submission_store
  simp only []
  repeat' split
  all_goals rfl

theorem enrich_submission_store_url_extraction (net : String → Bool)
    (result : EnrichmentResult) (d4 : EnrichmentData) (sub2 : Submission) :
    (enrich_submission_store net result d4 sub2).enrichment_data.map
      EnrichmentData.url_extraction = some d4.url_extraction := by
  unfold enrich_submission_store
  simp only []
  repeat' split
  all_goals simp

theorem enrich_submission_store_success (net : String → Bool)
    (result : EnrichmentResult) (d4 : EnrichmentData) (sub2 : Submission) :
    (enrich_submission_store net result d4 sub2).enrichment_data.map
      EnrichmentData.success = some d4.success := by
  unfold enrich_submission_store
  simp only []
  repeat' split
  all_goals simp

theorem enrich_submission_tail_proj (scrape : String → ScrapeOutcome)
    (net : String → Bool) (can : String → Option String)
    (orig : String) (smeta : Option SourcingMetadata) (u : String)
    (s1 : Submission) :
    (enrich_submission_tail scrape net can orig smeta u s1).agent_website
        = s1.agent_website
    ∧ (enrich_submission_tail scrape net can orig smeta u s1).enrichment_data.map
        EnrichmentData.url_extraction
      = some (if orig ≠ u then some (UrlExtraction.mk orig u true) else none)
    ∧ (enrich_submission_tail scrape net can orig smeta u s1).enrichment_data.map
        EnrichmentData.success = some (enrich scrape u).success := by
  unfold enrich_submission_tail
  simp only []
  repeat' split
  all_goals simp_all [enrich_submission_store_website,
    enrich_submission_store_url_extraction, enrich_submission_store_success,
    EnrichmentResult.toData]

/-- C9: aggregator URL extraction accepts exactly a non-empty extracted
URL with confidence at least 1/2 that starts with `http://` or
`https://`; during `enrich_submission` of an aggregator-classified (or
aggregator-flagged) submission, an accepted URL different from the
original replaces the website, is the URL scraped, and is recorded in a
`_url_extraction` fragment; an absent or identical extraction leaves
the website unchanged, scrapes the original, and stores no fragment. -/
theorem C9_aggregator_extraction (cfg : FilterConfig) (agg : AggExtraction)
    (scrape : String → ScrapeOutcome) (net : String → Bool)
    (canonical_scan : String → Option String) (sub : Submission)
    (hagg : is_aggregator_url cfg sub.agent_website = true
      ∨ (sub.enrichment_data.bind EnrichmentData.sourcing_metadata).map
          SourcingMetadata.is_aggregator = some true) :
    ((∀ (pw : Option String) (conf : Option ℚ) (u : String),
        extract_product_url_from_aggregator (AggExtraction.ok pw conf) = some u ↔
          (pw = some u ∧ u ≠ "" ∧ conf.getD 0 ≥ mkRat 1 2
            ∧ ("http://".data.isPrefixOf u.data = true
              ∨ "https://".data.isPrefixOf u.data = true)))
      ∧ extract_product_url_from_aggregator AggExtraction.failure = none)
    ∧ (∀ extracted, extract_product_url_from_aggregator agg = some extracted →
        extracted ≠ sub.agent_website →
        ((enrich_submission cfg agg scrape net canonical_scan sub).agent_website
            = extracted
          ∧ ((enrich_submission cfg agg scrape net canonical_scan
                sub).enrichment_data.map EnrichmentData.url_extraction)
            = some (some (UrlExtraction.mk sub.agent_website extracted true))
          ∧ ((enrich_submission cfg agg scrape net canonical_scan
                sub).enrichment_data.map EnrichmentData.success)
            = some (enrich scrape extracted).success))
    ∧ (extract_product_url_from_aggregator agg = none →
        ((enrich_submission cfg agg scrape net canonical_scan sub).agent_website
            = sub.agent_website
          ∧ ((enrich_submission cfg agg scrape net canonical_scan
                sub).enrichment_data.map EnrichmentData.url_extraction) = some none
          ∧ ((enrich_submission cfg agg scrape net canonical_scan
                sub).enrichment_data.map EnrichmentData.success)
            = some (enrich scrape sub.agent_website).success))
    ∧ (extract_product_url_from_aggregator agg = some sub.agent_website →
        ((enrich_submission cfg agg scrape net canonical_scan sub).agent_website
            = sub.agent_website
          ∧ ((enrich_submission cfg agg scrape net canonical_scan
                sub).enrichment_data.map EnrichmentData.url_extraction)
            = some none)) := by
  have hisAgg : (is_aggregator_url cfg sub.agent_website
      || ((sub.enrichment_data.bind EnrichmentData.sourcing_metadata).map
            SourcingMetadata.is_aggregator).getD false) = true := by
    rcases hagg with h | h
    · simp [h]
    · simp [h]
  refine ⟨⟨?_, rfl⟩, ?_, ?_, ?_⟩
  · intro pw conf u
    cases pw with
    | none =>
      simp [extract_product_url_from_aggregator, truthyOpt]
    | some s =>
      by_cases hs : s = ""
      · subst hs
        constructor
        · intro h
          simp [extract_product_url_from_aggregator, truthyOpt] at h
        · rintro ⟨heq, hne, -⟩
          exact absurd (Option.some.inj heq).symm hne
      · rw [show extract_product_url_from_aggregator (AggExtraction.ok (some s) conf)
            = (if conf.getD 0 ≥ mkRat 1 2 then
                if "http://".data.isPrefixOf s.data || "https://".data.isPrefixOf s.data
                then some s else none
              else none) from by
          simp [extract_product_url_from_aggregator, truthyOpt, hs]]
        split_ifs with hconf hpre
        · constructor
          · intro h
            obtain rfl := Option.some.inj h
            exact ⟨rfl, hs, hconf, by simpa using hpre⟩
          · rintro ⟨heq, -, -, -⟩
            obtain rfl := Option.some.inj heq
            rfl
        · constructor
          · intro h
            cases h
          · rintro ⟨heq, -, -, hp⟩
            obtain rfl := Option.some.inj heq
            exact absurd (by simpa using hp) hpre
        · constructor
          · intro h
            cases h
          · rintro ⟨heq, -, hc, -⟩
            obtain rfl := Option.some.inj heq
            exact absurd hc hconf
  · intro extracted hext hneq
    have htp := enrich_submission_tail_proj scrape net canonical_scan
      sub.agent_website (sub.enrichment_data.bind EnrichmentData.sourcing_metadata)
      extracted { sub with agent_website := extracted }
    have h2 := htp.2.1
    rw [if_pos (show sub.agent_website ≠ extracted from fun h => hneq h.symm)] at h2
    unfold enrich_submission
    simp only []
    rw [if_pos hisAgg, hext]
    simp only []
    rw [if_pos hneq]
    exact ⟨htp.1, h2, htp.2.2⟩
  · intro hext
    have htp := enrich_submission_tail_proj scrape net canonical_scan
      sub.agent_website (sub.enrichment_data.bind EnrichmentData.sourcing_metadata)
      sub.agent_website sub
    have h2 := htp.2.1
    rw [if_neg (show ¬ sub.agent_website ≠ sub.agent_website from fun h => h rfl)] at h2
    unfold enrich_submission
    simp only []
    rw [if_pos hisAgg, hext]
    simp only []
    exact ⟨htp.1, h2, htp.2.2⟩
  · intro hext
    have htp := enrich_submission_tail_proj scrape net canonical_scan
      sub.agent_website (sub.enrichment_data.bind EnrichmentData.sourcing_metadata)
      sub.agent_website sub
    have h2 := htp.2.1
    rw [if_neg (show ¬ sub.agent_website ≠ sub.agent_website from fun h => h rfl)] at h2
    unfold enrich_submission
    simp only []
    rw [if_pos hisAgg, hext]
    simp only []
    rw [if_neg (show ¬ sub.agent_website ≠ sub.agent_website from fun h => h rfl)]
    exact ⟨htp.1, h2⟩

/-- C9 witness: an aggregator submission whose extraction returns
`https://foo.ai` at confidence 4/5 has its website replaced by
`https://foo.ai`. -/
theorem C9_aggregator_extraction_witness :
    extract_product_url_from_aggregator
        (AggExtraction.ok (some "https://foo.ai") (some (mkRat 4 5)))
      = some "https://foo.ai"
    ∧ (enrich_submission sampleCfg
        (AggExtraction.ok (some "https://foo.ai") (some (mkRat 4 5)))
        (fun _ => ScrapeOutcome.noResponse) (fun _ => false) (fun _ => none)
        samplePending).agent_website = "https://foo.ai" := by
  have h := C9_aggregator_extraction sampleCfg
    (AggExtraction.ok (some "https://foo.ai") (some (mkRat 4 5)))
    (fun _ => ScrapeOutcome.noResponse) (fun _ => false) (fun _ => none)
    samplePending (Or.inl (by decide))
  exact ⟨by decide, (h.2.1 "https://foo.ai" (by decide) (by decide)).1⟩

end AutoDir
